import Mathlib

/-!
Shallow embedding of the gofpdf document construction and serialization engine.

Numeric values (Go `float64`) are modelled as exact rationals `ℚ`; Go byte
strings are modelled as `List Char` where each character stands for one byte
(values 0..255); Go maps are modelled as association lists (or functions where
the map is only ever read pointwise).  Functions that can `panic` in Go return
`Except String`.  The header/footer hooks are modelled in their default,
unset configuration (a no-op), as in a freshly created document.
-/

namespace Gofpdf

/-- ASCII lower-casing of one character (all inputs in the library are ASCII). -/
def asciiLower (c : Char) : Char :=
  if 'A' ≤ c ∧ c ≤ 'Z' then Char.ofNat (c.toNat + 32) else c

/-- ASCII upper-casing of one character. -/
def asciiUpper (c : Char) : Char :=
  if 'a' ≤ c ∧ c ≤ 'z' then Char.ofNat (c.toNat - 32) else c

/-- `strings.ToLower` for the ASCII tokens used in the library. -/
def strLower (s : String) : String := ⟨s.data.map asciiLower⟩

/-- `strings.ToUpper` for the ASCII tokens used in the library. -/
def strUpper (s : String) : String := ⟨s.data.map asciiUpper⟩

/-- Whitespace recognised by `strings.TrimSpace` on the ASCII inputs used here. -/
def isSpaceChar (c : Char) : Bool := c = ' ' ∨ c = '\t' ∨ c = '\n' ∨ c = '\r'

/-- `strings.TrimSpace`. -/
def strTrim (s : String) : String :=
  ⟨((s.data.dropWhile isSpaceChar).reverse.dropWhile isSpaceChar).reverse⟩

/-- `strings.Contains(s, c)` for a single-character pattern. -/
def strContainsChar (s : String) (c : Char) : Bool := s.data.contains c

/-- `strings.ReplaceAll(s, c, "")` for a single-character pattern: every
occurrence of the character is removed. -/
def strRemoveChar (s : String) (c : Char) : String := ⟨s.data.filter (· ≠ c)⟩

/-- Left-pad the decimal representation of a natural number with zeros
(`%0<width>d`). -/
def padZeroNat (width : ℕ) (n : ℕ) : String :=
  let s := toString n
  ⟨List.replicate (width - s.length) '0'⟩ ++ s

/-- Fixed-point decimal formatting of a rational, `prec` digits after the
point (the model of `fmt.Sprintf("%.<prec>F", ·)`). -/
def fmtFixed (prec : ℕ) (q : ℚ) : String :=
  let n : ℤ := round (q * (10 : ℚ) ^ prec)
  let sign := if n < 0 then "-" else ""
  let m := n.natAbs
  sign ++ toString (m / 10 ^ prec) ++ "." ++ padZeroNat prec (m % 10 ^ prec)

/-- The byte value of a model character (text is byte-level, chars 0..255). -/
def byteOf (c : Char) : Fin 256 := ⟨c.toNat % 256, Nat.mod_lt _ (by norm_num)⟩

/-- Association-list lookup, the model of a Go map read. -/
def lookupStr {α : Type} (l : List (String × α)) (key : String) : Option α :=
  match l with
  | [] => none
  | (k, v) :: rest => if k = key then some v else lookupStr rest key

/-- One entry of a font's Unicode code-point map (`pdfUVRange` or a bare int). -/
inductive PdfUV where
  | uvInt (v : ℕ)
  | uvRange (start count : ℕ)
deriving DecidableEq

/-- `pdfFont`. -/
structure PdfFont where
  typ : String := ""
  name : String := ""
  up : ℚ := 0
  ut : ℚ := 0
  cw : Fin 256 → ℤ := fun _ => 0
  enc : String := ""
  uv : List (ℕ × PdfUV) := []
  subsetted : Bool := false
  n : ℕ := 0
  i : ℕ := 0
  file : String := ""
  diff : String := ""

/-- `pdfImage`. -/
structure PdfImage where
  w : ℕ := 0
  h : ℕ := 0
  cs : String := ""
  bpc : ℕ := 0
  f : String := ""
  dp : String := ""
  pal : List Char := []
  trns : List ℤ := []
  data : List Char := []
  smk : List Char := []
  n : ℕ := 0
  i : ℕ := 0

/-- The `interface{}` values accepted as a link argument. -/
inductive LinkArg where
  | lNil
  | lStr (s : String)
  | lInt (v : ℤ)
deriving DecidableEq

/-- The `interface{}` values accepted as a border argument. -/
inductive BorderArg where
  | bNil
  | bInt (v : ℤ)
  | bStr (s : String)
deriving DecidableEq

/-- `border == 1 || border == "1"`. -/
def isBorder1 (b : BorderArg) : Bool := b = .bInt 1 ∨ b = .bStr "1"

/-- One recorded page link (`p.pageLinks` row): the five stored values plus the
object number appended during serialization (0 until then). -/
structure PageLink where
  x : ℚ := 0
  y : ℚ := 0
  w : ℚ := 0
  h : ℚ := 0
  link : LinkArg := .lNil
  objn : ℕ := 0

/-- Per-page optional overrides (`p.pageInfo[page]`): size, rotation, and the
object number recorded during serialization. -/
structure PageInfo where
  size : Option (ℚ × ℚ) := none
  rotation : Option ℤ := none
  n : Option ℕ := none

/-- The `interface{}` values accepted as a zoom mode. -/
inductive ZoomMode where
  | zNil
  | zStr (s : String)
  | zPct (v : ℚ)
deriving DecidableEq

/-- `Fpdf`: the main document state.  Field defaults are the Go zero values. -/
structure Fpdf where
  state : ℕ := 0
  page : ℕ := 0
  n : ℕ := 0
  offsets : List (ℕ × ℕ) := []
  buffer : List Char := []
  pages : List (List String) := []
  compress : Bool := false
  k : ℚ := 0
  defOrientation : String := ""
  curOrientation : String := ""
  stdPageSizes : List (String × (ℚ × ℚ)) := []
  defPageSize : ℚ × ℚ := (0, 0)
  curPageSize : ℚ × ℚ := (0, 0)
  curRotation : ℤ := 0
  pageInfo : ℕ → PageInfo := fun _ => {}
  wPt : ℚ := 0
  hPt : ℚ := 0
  w : ℚ := 0
  h : ℚ := 0
  lMargin : ℚ := 0
  tMargin : ℚ := 0
  rMargin : ℚ := 0
  bMargin : ℚ := 0
  cMargin : ℚ := 0
  x : ℚ := 0
  y : ℚ := 0
  lasth : ℚ := 0
  lineWidth : ℚ := 0
  fontpath : String := ""
  coreFonts : List String := []
  fonts : List (String × PdfFont) := []
  fontFamily : String := ""
  fontStyle : String := ""
  underline : Bool := false
  currentFont : Option PdfFont := none
  fontSizePt : ℚ := 0
  fontSize : ℚ := 0
  drawColor : String := ""
  fillColor : String := ""
  textColor : String := ""
  colorFlag : Bool := false
  withAlpha : Bool := false
  ws : ℚ := 0
  images : List (String × PdfImage) := []
  pageLinks : List (List PageLink) := []
  links : ℤ → ℚ × ℚ := fun _ => (0, 0)
  autoPageBreak : Bool := false
  pageBreakTrigger : ℚ := 0
  inHeader : Bool := false
  inFooter : Bool := false
  aliasNbPages : String := ""
  zoomMode : ZoomMode := .zNil
  layoutMode : String := ""
  metadata : List (String × String) := []
  creationDate : String := ""
  pdfVersion : String := ""
  assetFonts : List (String × PdfFont) := []
  lastError : String := ""

/-- The Go zero value `&Fpdf{}` that `NewFpdf` starts from. -/
def emptyFpdf : Fpdf := {}

/-- `courier.php` character widths: every entry is 600. -/
def courierCW : Fin 256 → ℤ := fun _ => 600

/-- `helvetica.php` character widths as shipped: every entry is 500. -/
def helveticaCW : Fin 256 → ℤ := fun _ => 500

/-- `courier.php` Unicode code-point map entries. -/
def courierUV : List (ℕ × PdfUV) :=
  [(0, .uvRange 0 128), (128, .uvInt 8364), (130, .uvInt 8218), (131, .uvInt 402),
   (132, .uvInt 8222), (133, .uvInt 8230), (134, .uvRange 8224 2), (136, .uvInt 710),
   (137, .uvInt 8240), (138, .uvInt 352), (139, .uvInt 8249), (140, .uvInt 338),
   (142, .uvInt 381), (145, .uvRange 8216 2), (147, .uvRange 8220 2), (149, .uvInt 8226),
   (150, .uvRange 8211 2), (152, .uvInt 732), (153, .uvInt 8482), (154, .uvInt 353),
   (155, .uvInt 8250), (156, .uvInt 339), (158, .uvInt 382), (159, .uvInt 376),
   (160, .uvRange 160 96)]

/-- The `courier.php` embedded font. -/
def courierFont : PdfFont :=
  { typ := "Core", name := "Courier", up := -100, ut := 50, cw := courierCW,
    enc := "cp1252", uv := courierUV }

/-- The `courierb.php` embedded font. -/
def courierbFont : PdfFont :=
  { typ := "Core", name := "Courier-Bold", up := -100, ut := 50, cw := courierCW,
    enc := "cp1252", uv := [] }

/-- The `helvetica.php` embedded font. -/
def helveticaFont : PdfFont :=
  { typ := "Core", name := "Helvetica", up := -100, ut := 50, cw := helveticaCW,
    enc := "cp1252", uv := [] }

/-- `translatedFPDFFonts`: the embedded font-definition table. -/
def translatedFPDFFonts : List (String × PdfFont) :=
  [("courier.php", courierFont), ("courierb.php", courierbFont),
   ("helvetica.php", helveticaFont)]

/-- `setError`. -/
def setError (msg : String) (p : Fpdf) : Fpdf := {p with lastError := msg}

/-- `panicError`: a Go panic, modelled as an error result. -/
def errPanic {α : Type} (msg : String) : Except String α :=
  .error ("fpdf error: " ++ msg)

/-- `GetStringWidth`: width of a byte string in the current font, in document
units. -/
def GetStringWidth (p : Fpdf) (s : List Char) : ℚ :=
  match p.currentFont with
  | none => 0
  | some f => (((s.map (fun c => f.cw (byteOf c))).sum : ℤ) : ℚ) * p.fontSize / 1000

/-- `charWidth`: per-byte advance width with the zero-entry fallback to `'?'`. -/
def charWidth (p : Fpdf) (c : Char) : ℤ :=
  match p.currentFont with
  | none => 0
  | some f => if f.cw (byteOf c) = 0 then f.cw (byteOf '?') else f.cw (byteOf c)

/-- The per-byte advance width as the specification words it: the font-table
entry, with a zero entry contributing the width of `'?'` instead. -/
def specCharWidth (f : PdfFont) (c : Char) : ℤ :=
  if f.cw (byteOf c) = 0 then f.cw (byteOf '?') else f.cw (byteOf c)

/-- The string width as the specification words it: sum of per-byte advance
widths (with the `'?'` fallback) multiplied by fontSize/1000. -/
def specStringWidth (f : PdfFont) (size : ℚ) (s : List Char) : ℚ :=
  (((s.map (specCharWidth f)).sum : ℤ) : ℚ) * size / 1000

/-- `containsString`. -/
def containsString (list : List String) (v : String) : Bool := list.contains v

/-- `maxInt`. -/
def maxInt (a b : ℕ) : ℕ := max a b

/-- `SetMargins`. -/
def SetMargins (left top : ℚ) (right : Option ℚ) (p : Fpdf) : Fpdf :=
  {p with lMargin := left, tMargin := top, rMargin := right.getD left}

/-- `SetAutoPageBreak`. -/
def SetAutoPageBreak (auto : Bool) (margin : ℚ) (p : Fpdf) : Fpdf :=
  {p with autoPageBreak := auto, bMargin := margin, pageBreakTrigger := p.h - margin}

/-- `SetDisplayMode`. -/
def SetDisplayMode (zoom : ZoomMode) (layout : String) (p : Fpdf) : Fpdf :=
  {p with zoomMode := zoom, layoutMode := strLower layout}

/-- `SetCompression`. -/
def SetCompression (compress : Bool) (p : Fpdf) : Fpdf := {p with compress := compress}

/-- `getPageSize`: resolve a page-size token, falling back to A4 when the
token is not recognised. -/
def getPageSize (p : Fpdf) (size : String) : ℚ × ℚ :=
  let s := strLower (strTrim size)
  let s := if s = "" then "a4" else s
  match lookupStr p.stdPageSizes s with
  | some v => v
  | none => (lookupStr p.stdPageSizes "a4").getD (0, 0)

/-- The standard page-size table built by `Reset` from the unit scale. -/
def stdPageSizesFor (k : ℚ) : List (String × (ℚ × ℚ)) :=
  [("a3", (841.89 / k, 1190.55 / k)), ("a4", (595.28 / k, 841.89 / k)),
   ("a5", (420.94 / k, 595.28 / k)), ("letter", (612.0 / k, 792.0 / k)),
   ("legal", (612.0 / k, 1008.0 / k))]

/-- The unit switch at the top of `Reset`: set the scale factor, recording an
error message (and falling back to the millimetre scale) for an unrecognised
unit token. -/
def resetUnitScale (unit : String) (p : Fpdf) : Fpdf :=
  let unitTok := strLower (strTrim unit)
  if unitTok = "pt" then {p with k := 1}
  else if unitTok = "mm" then {p with k := 72.0 / 25.4}
  else if unitTok = "cm" then {p with k := 72.0 / 2.54}
  else if unitTok = "in" then {p with k := 72}
  else setError ("incorrect unit: " ++ unit) {p with k := 72.0 / 25.4}

/-- `Reset`: (re)initialise the document with new parameters. -/
def Reset (orientation unit size : String) (p : Fpdf) : Fpdf :=
  let p : Fpdf := {p with
    state := 0
    page := 0
    n := 2
    offsets := []
    buffer := []
    pages := []
    pageInfo := fun _ => {}
    fonts := []
    images := []
    links := fun _ => (0, 0)
    pageLinks := []
    inHeader := false
    inFooter := false
    lasth := 0
    fontFamily := ""
    fontStyle := ""
    fontSizePt := 12
    underline := false
    drawColor := "0 G"
    fillColor := "0 g"
    textColor := "0 g"
    colorFlag := false
    withAlpha := false
    ws := 0
    fontpath := ""
    coreFonts := ["courier", "helvetica", "times", "symbol", "zapfdingbats"]
    assetFonts := translatedFPDFFonts}
  let p := resetUnitScale unit p
  let p := {p with stdPageSizes := stdPageSizesFor p.k}
  let sz := getPageSize p size
  let p := {p with defPageSize := sz, curPageSize := sz}
  let o := strLower (strTrim orientation)
  let p :=
    if o = "" ∨ o = "p" ∨ o = "portrait" then
      {p with defOrientation := "P", w := sz.1, h := sz.2}
    else
      {p with defOrientation := "L", w := sz.2, h := sz.1}
  let p := {p with
    curOrientation := p.defOrientation
    wPt := p.w * p.k
    hPt := p.h * p.k
    curRotation := 0}
  let margin : ℚ := 28.35 / p.k
  let p := SetMargins margin margin none p
  let p := {p with cMargin := margin / 10, lineWidth := 0.567 / p.k}
  let p := SetAutoPageBreak true (2 * margin) p
  let p := SetDisplayMode (.zStr "default") "default" p
  let p := SetCompression true p
  {p with
    metadata := [("Producer", "G3pix Gofpdf Library")]
    pdfVersion := "1.3"
    creationDate := ""
    lastError := ""}

/-- `NewFpdf`. -/
def NewFpdf (orientation unit size : String) : Fpdf := Reset orientation unit size emptyFpdf

/-- `GetX`. -/
def GetX (p : Fpdf) : ℚ := p.x

/-- `GetY`. -/
def GetY (p : Fpdf) : ℚ := p.y

/-- `SetX`. -/
def SetX (x : ℚ) (p : Fpdf) : Fpdf :=
  if x ≥ 0 then {p with x := x} else {p with x := p.w + x}

/-- `SetY`. -/
def SetY (y : ℚ) (resetX : Bool) (p : Fpdf) : Fpdf :=
  let p := if y ≥ 0 then {p with y := y} else {p with y := p.h + y}
  if resetX then {p with x := p.lMargin} else p

/-- `out`: append a content operator to the open page. -/
def out (s : String) (p : Fpdf) : Except String Fpdf :=
  if p.state = 2 then
    .ok {p with pages := p.pages.set (p.page - 1) (p.pages.getD (p.page - 1) [] ++ [s])}
  else if p.state = 0 then errPanic "no page has been added yet"
  else if p.state = 1 then errPanic "invalid call"
  else errPanic "the document is closed"

/-- `loadFontAsset` (the `file` argument never contains a path separator when
this is reached, so `filepath.Base` is the identity). -/
def loadFontAsset (p : Fpdf) (file : String) : Option PdfFont :=
  lookupStr p.assetFonts (strLower file)

/-- `AddFont`. -/
def AddFont (family style file dir : String) (p : Fpdf) : Except String Fpdf :=
  let family := strLower (strTrim family)
  let file := if file = "" then strRemoveChar family ' ' ++ strLower style ++ ".php" else file
  let style := strUpper style
  let style := if style = "IB" then "BI" else style
  let fontkey := family ++ style
  if (lookupStr p.fonts fontkey).isSome then .ok p
  else if strContainsChar file '/' ∨ strContainsChar file '\\' then
    errPanic ("incorrect font definition file name: " ++ file)
  else
    match loadFontAsset p file with
    | none => errPanic ("could not load embedded font definition: " ++ file)
    | some info =>
      let clone := {info with i := p.fonts.length + 1}
      .ok {p with fonts := p.fonts ++ [(fontkey, clone)]}

/-- `SetFont`. -/
def SetFont (family style : String) (size : ℚ) (p : Fpdf) : Except String Fpdf :=
  let family := if family = "" then p.fontFamily else strLower family
  let style := strUpper style
  let (p, style) :=
    if strContainsChar style 'U' then ({p with underline := true}, strRemoveChar style 'U')
    else ({p with underline := false}, style)
  let style := if style = "IB" then "BI" else style
  let size := if size = 0 then p.fontSizePt else size
  if p.fontFamily = family ∧ p.fontStyle = style ∧ p.fontSizePt = size then .ok p
  else do
    let fontkey := family ++ style
    let (p, family, style) ←
      if (lookupStr p.fonts fontkey).isSome then Except.ok (p, family, style)
      else
        let family := if family = "arial" then "helvetica" else family
        if containsString p.coreFonts family then
          let style := if family = "symbol" ∨ family = "zapfdingbats" then "" else style
          let fontkey := family ++ style
          if (lookupStr p.fonts fontkey).isSome then Except.ok (p, family, style)
          else do
            let p ← AddFont family style "" "" p
            Except.ok (p, family, style)
        else errPanic ("undefined font: " ++ family ++ " " ++ style)
    let fontkey := family ++ style
    let p := {p with
      fontFamily := family
      fontStyle := style
      fontSizePt := size
      fontSize := size / p.k
      currentFont := lookupStr p.fonts fontkey}
    if p.page > 0 then
      out ("BT /F" ++ toString ((p.currentFont.map PdfFont.i).getD 0) ++ " " ++
        fmtFixed 2 p.fontSizePt ++ " Tf ET") p
    else .ok p

/-- `SetFontSize`. -/
def SetFontSize (size : ℚ) (p : Fpdf) : Except String Fpdf :=
  if p.fontSizePt = size then .ok p
  else
    let p := {p with fontSizePt := size, fontSize := size / p.k}
    if p.page > 0 ∧ p.currentFont.isSome then
      out ("BT /F" ++ toString ((p.currentFont.map PdfFont.i).getD 0) ++ " " ++
        fmtFixed 2 p.fontSizePt ++ " Tf ET") p
    else .ok p

/-- Pointwise update of the `pageInfo` map. -/
def updPI (f : ℕ → PageInfo) (key : ℕ) (g : PageInfo → PageInfo) : ℕ → PageInfo :=
  fun m => if m = key then g (f m) else f m

/-- `beginPage`. -/
def beginPage (orientation size : String) (rotation : ℤ) (p : Fpdf) : Fpdf :=
  let p := {p with
    page := p.page + 1
    pages := p.pages ++ [[]]
    pageLinks := p.pageLinks ++ [[]]
    state := 2
    x := p.lMargin
    y := p.tMargin
    fontFamily := ""}
  let orientation :=
    if orientation = "" then p.defOrientation
    else strUpper (String.singleton (orientation.data.headD 'P'))
  let ps := if size = "" then p.defPageSize else getPageSize p size
  let p :=
    if orientation ≠ p.curOrientation ∨ ps ≠ p.curPageSize then
      let wh := if orientation = "P" then ps else (ps.2, ps.1)
      {p with
        w := wh.1
        h := wh.2
        wPt := wh.1 * p.k
        hPt := wh.2 * p.k
        pageBreakTrigger := wh.2 - p.bMargin
        curOrientation := orientation
        curPageSize := ps}
    else p
  let p :=
    if orientation ≠ p.defOrientation ∨ ps ≠ p.defPageSize then
      {p with pageInfo := updPI p.pageInfo p.page (fun pi => {pi with size := some (p.wPt, p.hPt)})}
    else p
  let p :=
    if rotation ≠ 0 then
      {p with pageInfo := updPI p.pageInfo p.page (fun pi => {pi with rotation := some rotation})}
    else p
  {p with curRotation := rotation}

/-- `endPage`. -/
def endPage (p : Fpdf) : Fpdf := {p with state := 1}

/-- `Header`: the hook is not installed (the default), so this is a no-op. -/
def Header (p : Fpdf) : Fpdf := p

/-- `Footer`: the hook is not installed (the default), so this is a no-op. -/
def Footer (p : Fpdf) : Fpdf := p

/-- The graphics state captured at the top of `AddPage` and re-applied after
the new page is opened. -/
structure PageGraphics where
  family : String
  style : String
  fontsize : ℚ
  lw : ℚ
  dc : String
  fc : String
  tc : String
  cf : Bool

/-- The tail of `AddPage`: open the new page and re-apply the captured
graphics state (line cap, line width, font, colors), running the header hook
in between. -/
def addPageRestore (g : PageGraphics) (orientation size : String) (rotation : ℤ)
    (p : Fpdf) : Except String Fpdf := do
  let p := beginPage orientation size rotation p
  let p ← out "2 J" p
  let p := {p with lineWidth := g.lw}
  let p ← out (fmtFixed 2 (g.lw * p.k) ++ " w") p
  let p ← (if g.family ≠ "" then SetFont g.family g.style g.fontsize p else .ok p)
  let p := {p with drawColor := g.dc}
  let p ← (if g.dc ≠ "0 G" then out g.dc p else .ok p)
  let p := {p with fillColor := g.fc}
  let p ← (if g.fc ≠ "0 g" then out g.fc p else .ok p)
  let p := {p with textColor := g.tc, colorFlag := g.cf}
  let p := {(Header {p with inHeader := true}) with inHeader := false}
  let p ←
    (if p.lineWidth ≠ g.lw then
      out (fmtFixed 2 (g.lw * p.k) ++ " w") {p with lineWidth := g.lw}
    else .ok p)
  let p ← (if g.family ≠ "" then SetFont g.family g.style g.fontsize p else .ok p)
  let p ← (if p.drawColor ≠ g.dc then out g.dc {p with drawColor := g.dc} else .ok p)
  let p ← (if p.fillColor ≠ g.fc then out g.fc {p with fillColor := g.fc} else .ok p)
  .ok {p with textColor := g.tc, colorFlag := g.cf}

/-- `AddPage`. -/
def AddPage (orientation size : String) (rotation : ℤ) (p : Fpdf) : Except String Fpdf :=
  if p.state = 3 then errPanic "the document is closed" else
  let g : PageGraphics :=
    { family := p.fontFamily
      style := p.fontStyle ++ (if p.underline then "U" else "")
      fontsize := p.fontSizePt
      lw := p.lineWidth
      dc := p.drawColor
      fc := p.fillColor
      tc := p.textColor
      cf := p.colorFlag }
  let p :=
    if p.page > 0 then
      endPage {(Footer {p with inFooter := true}) with inFooter := false}
    else p
  addPageRestore g orientation size rotation p

/-- The cursor/layout projections of the state that the graphics-restore tail
of `AddPage` never touches after `beginPage`. -/
def restoreStable (b : Fpdf) : ℕ × ℚ × ℚ × ℚ × ℚ × ℚ × ℚ × ℚ × ℚ × ℚ × Bool × Bool ×
    List (String × PdfFont) :=
  (b.page, b.ws, b.k, b.cMargin, b.x, b.y, b.lMargin, b.rMargin, b.bMargin,
   b.tMargin, b.inFooter, b.autoPageBreak, b.fonts)

/-- The font/layout context preserved by the `Cell` calls that `MultiCell`
and `Write` make while scanning text. -/
def fontCtx (b : Fpdf) : ℕ × ℚ × ℚ × List (String × PdfFont) × String × String ×
    Bool × Option PdfFont × ℚ × ℚ × ℚ × ℚ × ℚ × ℚ × Bool :=
  (b.state, b.k, b.cMargin, b.fonts, b.fontFamily, b.fontStyle, b.underline,
   b.currentFont, b.fontSizePt, b.fontSize, b.lMargin, b.rMargin, b.bMargin,
   b.tMargin, b.autoPageBreak)

/-- `AcceptPageBreak`. -/
def AcceptPageBreak (p : Fpdf) : Bool := p.autoPageBreak

/-- `Link`: record a clickable-link rectangle on the current page. -/
def Link (x y w h : ℚ) (link : LinkArg) (p : Fpdf) : Fpdf :=
  let pl : PageLink := {x := x * p.k, y := p.hPt - y * p.k, w := w * p.k, h := h * p.k, link := link}
  {p with pageLinks := p.pageLinks.set (p.page - 1) (p.pageLinks.getD (p.page - 1) [] ++ [pl])}

/-- `escape`: escape backslash, parentheses and carriage return.  The source
applies four sequential single-character `ReplaceAll`s; since each pattern is
one character and no replacement introduces a later pattern's character in a
way that changes the result, this is the same as one character-wise pass. -/
def escape (s : List Char) : List Char :=
  (s.map (fun c =>
    if c = '\\' then ['\\', '\\']
    else if c = '(' then ['\\', '(']
    else if c = ')' then ['\\', ')']
    else if c = '\r' then ['\\', 'r']
    else [c])).flatten

/-- Count of space characters (`strings.Count(txt, " ")`). -/
def countSpaces (s : List Char) : ℕ := (s.filter (· = ' ')).length

/-- `doUnderline`. -/
def doUnderline (x y : ℚ) (txt : List Char) (p : Fpdf) : String :=
  match p.currentFont with
  | none => ""
  | some f =>
    let w := GetStringWidth p txt + p.ws * (countSpaces txt : ℚ)
    fmtFixed 2 (x * p.k) ++ " " ++
      fmtFixed 2 ((p.h - (y - f.up / 1000 * p.fontSize)) * p.k) ++ " " ++
      fmtFixed 2 (w * p.k) ++ " " ++ fmtFixed 2 (-f.ut / 1000 * p.fontSizePt) ++ " re f"

/-- The page-break guard at the top of `Cell` (lines 532–545 of the source):
if the cell does not fit and a break is allowed, clear any word spacing, add a
page, restore the horizontal cursor and re-apply the word spacing. -/
def cellStartPageBreak (h : ℚ) (p : Fpdf) : Except String Fpdf :=
  let k := p.k
  if p.y + h > p.pageBreakTrigger ∧ p.inHeader = false ∧ p.inFooter = false ∧
      AcceptPageBreak p then do
    let x := p.x
    let ws := p.ws
    let p ← (if ws > 0 then out "0 Tw" {p with ws := 0} else .ok p)
    let p ← AddPage p.curOrientation "" p.curRotation p
    let p := {p with x := x}
    if ws > 0 then out (fmtFixed 3 (ws * k) ++ " Tw") {p with ws := ws} else .ok p
  else .ok p

/-- The fill/full-border rectangle operator built by `Cell` (empty when
neither fill nor a full border is requested). -/
def cellRectOp (w h : ℚ) (border : BorderArg) (fill : Bool) (p : Fpdf) : String :=
  if fill ∨ isBorder1 border then
    let op := if fill then (if isBorder1 border then "B" else "f") else "S"
    fmtFixed 2 (p.x * p.k) ++ " " ++ fmtFixed 2 ((p.h - p.y) * p.k) ++ " " ++
      fmtFixed 2 (w * p.k) ++ " " ++ fmtFixed 2 (-h * p.k) ++ " re " ++ op ++ " "
  else ""

/-- The per-side border segments built by `Cell` for a letter-string border. -/
def cellBorderOp (w h : ℚ) (border : BorderArg) (p : Fpdf) : String :=
  match border with
  | .bStr bs =>
    let k := p.k
    let x := p.x
    let y := p.y
    (if bs.data.contains 'L' then
      fmtFixed 2 (x * k) ++ " " ++ fmtFixed 2 ((p.h - y) * k) ++ " m " ++
        fmtFixed 2 (x * k) ++ " " ++ fmtFixed 2 ((p.h - (y + h)) * k) ++ " l S "
     else "") ++
    (if bs.data.contains 'T' then
      fmtFixed 2 (x * k) ++ " " ++ fmtFixed 2 ((p.h - y) * k) ++ " m " ++
        fmtFixed 2 ((x + w) * k) ++ " " ++ fmtFixed 2 ((p.h - y) * k) ++ " l S "
     else "") ++
    (if bs.data.contains 'R' then
      fmtFixed 2 ((x + w) * k) ++ " " ++ fmtFixed 2 ((p.h - y) * k) ++ " m " ++
        fmtFixed 2 ((x + w) * k) ++ " " ++ fmtFixed 2 ((p.h - (y + h)) * k) ++ " l S "
     else "") ++
    (if bs.data.contains 'B' then
      fmtFixed 2 (x * k) ++ " " ++ fmtFixed 2 ((p.h - (y + h)) * k) ++ " m " ++
        fmtFixed 2 ((x + w) * k) ++ " " ++ fmtFixed 2 ((p.h - (y + h)) * k) ++ " l S "
     else "")
  | _ => ""

/-- The resolved cell width (`w == 0` means "to the right margin"). -/
def cellWidth (w : ℚ) (p : Fpdf) : ℚ := if w = 0 then p.w - p.rMargin - p.x else w

/-- The alignment offset `dx` used by `Cell`. -/
def cellDx (w : ℚ) (txt : List Char) (align : String) (p : Fpdf) : ℚ :=
  if align = "R" then w - p.cMargin - GetStringWidth p txt
  else if align = "C" then (w - GetStringWidth p txt) / 2
  else p.cMargin

/-- The text operator built by `Cell` for non-empty text. -/
def cellTextOp (w h : ℚ) (txt : List Char) (align : String) (p : Fpdf) : String :=
  (if p.colorFlag then "q " ++ p.textColor ++ " " else "") ++
  "BT " ++ fmtFixed 2 ((p.x + cellDx w txt align p) * p.k) ++ " " ++
    fmtFixed 2 ((p.h - (p.y + 0.5 * h + 0.3 * p.fontSize)) * p.k) ++ " Td (" ++
    String.mk (escape txt) ++ ") Tj ET" ++
  (if p.underline then
    " " ++ doUnderline (p.x + cellDx w txt align p) (p.y + 0.5 * h + 0.3 * p.fontSize) txt p
   else "") ++
  (if p.colorFlag then " Q" else "")

/-- The cursor update at the end of `Cell`. -/
def cellAdvance (w h : ℚ) (ln : ℤ) (p : Fpdf) : Fpdf :=
  let p := {p with lasth := h}
  if ln > 0 then
    let p := {p with y := p.y + h}
    if ln = 1 then {p with x := p.lMargin} else p
  else {p with x := p.x + w}

/-- The drawing part of `Cell` (everything after the page-break guard). -/
def cellDraw (w h : ℚ) (txt : List Char) (border : BorderArg) (ln : ℤ) (align : String)
    (fill : Bool) (link : LinkArg) (p : Fpdf) : Except String Fpdf :=
  let w := cellWidth w p
  let s := cellRectOp w h border fill p ++ cellBorderOp w h border p
  let step : Except String (String × Fpdf) :=
    if txt = [] then Except.ok (s, p)
    else if p.currentFont.isNone then errPanic "no font has been set"
    else
      let p2 :=
        if link ≠ .lStr "" ∧ link ≠ .lNil then
          Link (p.x + cellDx w txt align p) (p.y + 0.5 * h - 0.5 * p.fontSize)
            (GetStringWidth p txt) p.fontSize link p
        else p
      Except.ok (s ++ cellTextOp w h txt align p, p2)
  step >>= fun sp =>
    (if sp.1 ≠ "" then out sp.1 sp.2 else .ok sp.2) >>= fun p =>
      .ok (cellAdvance w h ln p)

/-- `Cell`: the page-break guard followed by the drawing phase. -/
def Cell (w h : ℚ) (txt : List Char) (border : BorderArg) (ln : ℤ) (align : String)
    (fill : Bool) (link : LinkArg) (p : Fpdf) : Except String Fpdf := do
  let p ← cellStartPageBreak h p
  cellDraw w h txt border ln align fill link p

/-- `Ln`. -/
def Ln (h : ℚ) (p : Fpdf) : Fpdf :=
  let p := {p with x := p.lMargin}
  if h < 0 then {p with y := p.y + p.lasth} else {p with y := p.y + h}

/-- `s[i:j]` on a byte string. -/
def slice (s : List Char) (start stop : ℕ) : List Char := (s.take stop).drop start

/-- Which branch of the `MultiCell` scan emitted a line. -/
inductive MCKind where
  | newlineBreak
  | forcedBreak
  | sepBreak
  | finalLine
deriving DecidableEq

/-- Instrumentation record for one `Cell` call made by `MultiCell`: the line's
text, the word-spacing value in effect when it is drawn, and the emitting
branch.  The trace only observes the calls the code already makes. -/
structure MCEvent where
  text : List Char
  ws : ℚ
  kind : MCKind

/-- The scanning loop of `MultiCell` (source lines 650–710).  `sep = none`
models `sep == -1`.  The two proof arguments record that the scan position is
to the right of the line start and that a recorded separator lies inside the
current line; both are maintained by the loop itself. -/
def MultiCellLoop (s : List Char) (nb : ℕ) (w h : ℚ) (b2 align : String) (fill : Bool)
    (wmax : ℚ) (i j : ℕ) (sep : Option ℕ) (l : ℤ) (ns nl : ℕ) (b : String)
    (tr : List MCEvent) (p : Fpdf) (hj : j ≤ i)
    (hsep : ∀ m, sep = some m → j ≤ m ∧ m < i) :
    Except String (Fpdf × List MCEvent × ℕ × ℕ × String) :=
  if hlt : i < nb then
    let c := s.getD i ' '
    if c = '\n' then do
      let p ← (if p.ws > 0 then out "0 Tw" {p with ws := 0} else .ok p)
      let ev : MCEvent := ⟨slice s j i, p.ws, .newlineBreak⟩
      let p ← Cell w h (slice s j i) (.bStr b) 2 align fill .lNil p
      let b := if b ≠ "" ∧ nl + 1 = 2 then b2 else b
      MultiCellLoop s nb w h b2 align fill wmax (i + 1) (i + 1) none 0 0 (nl + 1) b
        (tr ++ [ev]) p (le_refl _) (by intro m hm; simp at hm)
    else
      let ns2 := if c = ' ' then ns + 1 else ns
      let l := l + charWidth p c
      if (l : ℚ) > wmax then
        match hs : (if c = ' ' then some i else sep) with
        | none => do
          let i2 := if i = j then i + 1 else i
          let p ← (if p.ws > 0 then out "0 Tw" {p with ws := 0} else .ok p)
          let ev : MCEvent := ⟨slice s j i2, p.ws, .forcedBreak⟩
          let p ← Cell w h (slice s j i2) (.bStr b) 2 align fill .lNil p
          let b := if b ≠ "" ∧ nl + 1 = 2 then b2 else b
          MultiCellLoop s nb w h b2 align fill wmax i2 i2 none 0 0 (nl + 1) b
            (tr ++ [ev]) p (le_refl _) (by intro m hm; simp at hm)
        | some m => do
          let p ←
            (if align = "J" then
              let spaces := countSpaces (slice s j m)
              if spaces > 0 then
                let strW := GetStringWidth p (slice s j m)
                let wsv := (w - 2 * p.cMargin - strW) / (spaces : ℚ)
                out (fmtFixed 3 (wsv * p.k) ++ " Tw") {p with ws := wsv}
              else .ok p
            else .ok p)
          let ev : MCEvent := ⟨slice s j m, p.ws, .sepBreak⟩
          let p ← Cell w h (slice s j m) (.bStr b) 2 align fill .lNil p
          let b := if b ≠ "" ∧ nl + 1 = 2 then b2 else b
          MultiCellLoop s nb w h b2 align fill wmax (m + 1) (m + 1) none 0 0 (nl + 1) b
            (tr ++ [ev]) p (le_refl _) (by intro m2 hm; simp at hm)
      else
        MultiCellLoop s nb w h b2 align fill wmax (i + 1) j
          (if c = ' ' then some i else sep) l ns2 nl b tr p
          (Nat.le_succ_of_le hj)
          (by
            intro m hm
            split at hm
            · simp at hm
              omega
            · rcases hsep m hm with ⟨h1, h2⟩
              omega)
  else .ok (p, tr, i, j, b)
termination_by (nb - j, nb - i)
decreasing_by
  · left; omega
  · split <;> (left; omega)
  · have hm : j ≤ m ∧ m ≤ i := by
      split at hs
      · simp at hs
        omega
      · rcases hsep m hs with ⟨h1, h2⟩
        omega
    left; omega
  · right; omega

/-- The initial border letters `(b, b2)` computed by `MultiCell`
(source lines 630–649). -/
def multiCellBorders (border : BorderArg) : String × String :=
  if border ≠ .bNil ∧ border ≠ .bInt 0 ∧ border ≠ .bStr "0" ∧ border ≠ .bStr "" then
    if isBorder1 border then ("LRT", "LR")
    else
      match border with
      | .bStr bs =>
        let b2 := (if bs.data.contains 'L' then "L" else "") ++
          (if bs.data.contains 'R' then "R" else "")
        (if bs.data.contains 'T' then b2 ++ "T" else b2, b2)
      | _ => ("", "")
  else ("", "")

/-- `MultiCell`, returning the final state together with the instrumentation
trace of its `Cell` calls. -/
def MultiCell (w h : ℚ) (txt : List Char) (border : BorderArg) (align : String)
    (fill : Bool) (p : Fpdf) : Except String (Fpdf × List MCEvent) :=
  if p.currentFont.isNone then errPanic "no font has been set" else do
  let w := if w = 0 then p.w - p.rMargin - p.x else w
  let wmax := (w - 2 * p.cMargin) * 1000 / p.fontSize
  let s := txt.filter (· ≠ '\r')
  let nb := s.length
  let nb := if nb > 0 ∧ s.getD (nb - 1) ' ' = '\n' then nb - 1 else nb
  let bs := multiCellBorders border
  let (p, tr, i, j, b) ← MultiCellLoop s nb w h bs.2 align fill wmax 0 0 none 0 0 1 bs.1
    [] p (le_refl _) (by intro m hm; simp at hm)
  let p ← (if p.ws > 0 then out "0 Tw" {p with ws := 0} else .ok p)
  let b :=
    if isBorder1 border then b ++ "B"
    else
      match border with
      | .bStr bstr => if bstr.data.contains 'B' then b ++ "B" else b
      | _ => b
  let ev : MCEvent := ⟨slice s j i, p.ws, .finalLine⟩
  let p ← Cell w h (slice s j i) (.bStr b) 2 align fill .lNil p
  .ok ({p with x := p.lMargin}, tr ++ [ev])

/-- Instrumentation record for the `Write` scan. -/
inductive WrEvent where
  | wrLine (text : List Char)
  | wrDrop
  | wrFinal (text : List Char) (width : ℚ)
deriving DecidableEq

/-- The state update `x = lMargin; w = ...; wmax = ...` applied by `Write`
after its first emitted line (`nl == 1`). -/
def writeLineReset (nl : ℕ) (w wmax : ℚ) (p : Fpdf) : Fpdf × ℚ × ℚ :=
  if nl = 1 then
    let p := {p with x := p.lMargin}
    let w2 := p.w - p.rMargin - p.x
    (p, w2, (w2 - 2 * p.cMargin) * 1000 / p.fontSize)
  else (p, w, wmax)

/-- The scanning loop of `Write` (source lines 735–786). -/
def WriteLoop (s : List Char) (nb : ℕ) (h : ℚ) (link : LinkArg) (i j : ℕ)
    (sep : Option ℕ) (l : ℤ) (nl : ℕ) (w wmax : ℚ) (tr : List WrEvent) (p : Fpdf)
    (hj : j ≤ i) (hsep : ∀ m, sep = some m → j ≤ m ∧ m < i) :
    Except String (Fpdf × List WrEvent × ℕ × ℕ × ℤ) :=
  if hlt : i < nb then
    let c := s.getD i ' '
    if c = '\n' then do
      let ev : WrEvent := .wrLine (slice s j i)
      let p ← Cell w h (slice s j i) (.bInt 0) 2 "" false link p
      let r := writeLineReset nl w wmax p
      WriteLoop s nb h link (i + 1) (i + 1) none 0 (nl + 1) r.2.1 r.2.2 (tr ++ [ev]) r.1
        (le_refl _) (by intro m hm; simp at hm)
    else
      let l := l + charWidth p c
      if (l : ℚ) > wmax then
        match hs : (if c = ' ' then some i else sep) with
        | none =>
          if p.x > p.lMargin then
            let p := {p with x := p.lMargin, y := p.y + h}
            let w2 := p.w - p.rMargin - p.x
            let wmax2 := (w2 - 2 * p.cMargin) * 1000 / p.fontSize
            WriteLoop s nb h link (i + 1) j none l (nl + 1) w2 wmax2 (tr ++ [.wrDrop]) p
              (Nat.le_succ_of_le hj) (by intro m hm; simp at hm)
          else do
            let i2 := if i = j then i + 1 else i
            let ev : WrEvent := .wrLine (slice s j i2)
            let p ← Cell w h (slice s j i2) (.bInt 0) 2 "" false link p
            let r := writeLineReset nl w wmax p
            WriteLoop s nb h link i2 i2 none 0 (nl + 1) r.2.1 r.2.2 (tr ++ [ev]) r.1
              (le_refl _) (by intro m hm; simp at hm)
        | some m => do
          let ev : WrEvent := .wrLine (slice s j m)
          let p ← Cell w h (slice s j m) (.bInt 0) 2 "" false link p
          let r := writeLineReset nl w wmax p
          WriteLoop s nb h link (m + 1) (m + 1) none 0 (nl + 1) r.2.1 r.2.2 (tr ++ [ev]) r.1
            (le_refl _) (by intro m2 hm; simp at hm)
      else
        WriteLoop s nb h link (i + 1) j (if c = ' ' then some i else sep) l nl w wmax tr p
          (Nat.le_succ_of_le hj)
          (by
            intro m hm
            split at hm
            · simp at hm
              omega
            · rcases hsep m hm with ⟨h1, h2⟩
              omega)
  else .ok (p, tr, i, j, l)
termination_by (nb - j, nb - i)
decreasing_by
  · left; omega
  · right; omega
  · split <;> (left; omega)
  · have hm : j ≤ m ∧ m ≤ i := by
      split at hs
      · simp at hs
        omega
      · rcases hsep m hs with ⟨h1, h2⟩
        omega
    left; omega
  · right; omega

/-- `Write`, returning the final state together with the instrumentation trace. -/
def Write (h : ℚ) (txt : List Char) (link : LinkArg) (p : Fpdf) :
    Except String (Fpdf × List WrEvent) :=
  if p.currentFont.isNone then errPanic "no font has been set" else do
  let w := p.w - p.rMargin - p.x
  let wmax := (w - 2 * p.cMargin) * 1000 / p.fontSize
  let s := txt.filter (· ≠ '\r')
  let nb := s.length
  let (p, tr, i, j, l) ← WriteLoop s nb h link 0 0 none 0 1 w wmax [] p (le_refl _)
    (by intro m hm; simp at hm)
  if i ≠ j then do
    let ev : WrEvent := .wrFinal (s.drop j) ((l : ℚ) / 1000 * p.fontSize)
    let p ← Cell ((l : ℚ) / 1000 * p.fontSize) h (s.drop j) (.bInt 0) 0 "" false link p
    .ok (p, tr ++ [ev])
  else .ok (p, tr)

/-- `put`: write one line into the output buffer. -/
def put (s : String) (p : Fpdf) : Fpdf := {p with buffer := p.buffer ++ s.data ++ ['\n']}

/-- A raw buffer write (`p.buffer.Write`). -/
def bwrite (d : List Char) (p : Fpdf) : Fpdf := {p with buffer := p.buffer ++ d}

/-- `getOffset`. -/
def getOffset (p : Fpdf) : ℕ := p.buffer.length

/-- The framing line written for object `m`, newline included. -/
def objLine (m : ℕ) : List Char := (toString m ++ " 0 obj\n").data

/-- `newObj`: allocate the next object number (or force a given one), record
the current byte offset for it, and write the framing line. -/
def newObj (forced : Option ℕ) (p : Fpdf) : Fpdf :=
  match forced with
  | some m =>
    let p := {p with n := maxInt p.n m}
    put (toString m ++ " 0 obj") {p with offsets := p.offsets ++ [(m, getOffset p)]}
  | none =>
    let m := p.n + 1
    let p := {p with n := m}
    put (toString m ++ " 0 obj") {p with offsets := p.offsets ++ [(m, getOffset p)]}

/-- `putStream`. -/
def putStream (data : List Char) (p : Fpdf) : Fpdf :=
  put "endstream" (bwrite (data ++ ['\n']) (put "stream" p))

/-- `putStreamObject`.  The deflate compressor is an external collaborator and
is passed in as a function. -/
def putStreamObject (flate : List Char → List Char) (data : List Char) (p : Fpdf) : Fpdf :=
  let fd := if p.compress then ("/Filter /FlateDecode ", flate data) else ("", data)
  let entries := fd.1 ++ "/Length " ++ toString fd.2.length
  let p := newObj none p
  let p := put ("<<" ++ entries ++ ">>") p
  let p := putStream fd.2 p
  put "endobj" p

/-- `putHeader`. -/
def putHeader (p : Fpdf) : Fpdf := put ("%PDF-" ++ p.pdfVersion) p

/-- The numbering pre-pass of `putPages` for one page: assign the page object
number, skip one number for the content stream, and assign one number to each
page link, recording it in the link row. -/
def allocPage (st : Fpdf × ℕ) (i : ℕ) : Fpdf × ℕ :=
  let p := st.1
  let n := st.2 + 1
  let p := {p with pageInfo := updPI p.pageInfo i (fun pi => {pi with n := some n})}
  let n := n + 1
  let rows := p.pageLinks.getD (i - 1) []
  let upd := rows.foldl (fun (acc : List PageLink × ℕ) pl =>
    (acc.1 ++ [{pl with objn := acc.2 + 1}], acc.2 + 1)) ([], n)
  let p := {p with pageLinks := p.pageLinks.set (i - 1) upd.1}
  (p, upd.2)

/-- Go `int(x)` truncation of a float. -/
def intOfRat (q : ℚ) : ℤ := if q ≥ 0 then ⌊q⌋ else ⌈q⌉

/-- `isASCII`. -/
def isASCII (s : List Char) : Bool := s.all (fun c => c.toNat ≤ 127)

/-- Decode a UTF-8 byte sequence to code points (`[]rune(s)` in Go); an
invalid byte yields U+FFFD.  The fuel argument (initially the byte count)
only drives structural recursion; every step consumes at least one byte. -/
def decodeUTF8Aux : ℕ → List Char → List ℕ
  | 0, _ => []
  | _, [] => []
  | fuel + 1, c :: rest =>
    let b := c.toNat % 256
    if b < 0x80 then b :: decodeUTF8Aux fuel rest
    else if 0xC2 ≤ b ∧ b ≤ 0xDF then
      match rest with
      | c1 :: rest1 =>
        let b1 := c1.toNat % 256
        if 0x80 ≤ b1 ∧ b1 ≤ 0xBF then
          ((b - 0xC0) * 64 + (b1 - 0x80)) :: decodeUTF8Aux fuel rest1
        else 0xFFFD :: decodeUTF8Aux fuel rest
      | [] => [0xFFFD]
    else if 0xE0 ≤ b ∧ b ≤ 0xEF then
      match rest with
      | c1 :: c2 :: rest2 =>
        let b1 := c1.toNat % 256
        let b2 := c2.toNat % 256
        if 0x80 ≤ b1 ∧ b1 ≤ 0xBF ∧ 0x80 ≤ b2 ∧ b2 ≤ 0xBF then
          ((b - 0xE0) * 4096 + (b1 - 0x80) * 64 + (b2 - 0x80)) :: decodeUTF8Aux fuel rest2
        else 0xFFFD :: decodeUTF8Aux fuel rest
      | _ => 0xFFFD :: decodeUTF8Aux fuel rest
    else if 0xF0 ≤ b ∧ b ≤ 0xF4 then
      match rest with
      | c1 :: c2 :: c3 :: rest3 =>
        let b1 := c1.toNat % 256
        let b2 := c2.toNat % 256
        let b3 := c3.toNat % 256
        if 0x80 ≤ b1 ∧ b1 ≤ 0xBF ∧ 0x80 ≤ b2 ∧ b2 ≤ 0xBF ∧ 0x80 ≤ b3 ∧ b3 ≤ 0xBF then
          ((b - 0xF0) * 262144 + (b1 - 0x80) * 4096 + (b2 - 0x80) * 64 + (b3 - 0x80)) ::
            decodeUTF8Aux fuel rest3
        else 0xFFFD :: decodeUTF8Aux fuel rest
      | _ => 0xFFFD :: decodeUTF8Aux fuel rest
    else 0xFFFD :: decodeUTF8Aux fuel rest

/-- `[]rune(s)` on a UTF-8 byte string. -/
def decodeUTF8 (s : List Char) : List ℕ := decodeUTF8Aux s.length s

/-- `utf8ToUTF16BEWithBOM`: big-endian UTF-16 with byte-order mark; code
points above 0xFFFF are replaced by `'?'`. -/
def utf8ToUTF16BEWithBOM (s : List Char) : List Char :=
  [Char.ofNat 0xFE, Char.ofNat 0xFF] ++
    ((decodeUTF8 s).map (fun r =>
      let r := if r > 0xFFFF then 63 else r
      [Char.ofNat ((r / 256) % 256), Char.ofNat (r % 256)])).flatten

/-- `textString`. -/
def textString (p : Fpdf) (s : String) : String :=
  let s := if isASCII s.data then s else ⟨utf8ToUTF16BEWithBOM s.data⟩
  "(" ++ String.mk (escape s.data) ++ ")"

/-- Emit one link annotation object (`putLinks` loop body). -/
def putLink1 (pl : PageLink) (p : Fpdf) : Fpdf :=
  let p := newObj none p
  let rect := fmtFixed 2 pl.x ++ " " ++ fmtFixed 2 pl.y ++ " " ++
    fmtFixed 2 (pl.x + pl.w) ++ " " ++ fmtFixed 2 (pl.y - pl.h)
  let s := "<</Type /Annot /Subtype /Link /Rect [" ++ rect ++ "] /Border [0 0 0] "
  let s :=
    match pl.link with
    | .lStr v => s ++ "/A <</S /URI /URI " ++ textString p v ++ ">>>>"
    | other =>
      let lnk : ℤ := match other with | .lInt v => v | _ => 0
      let dst := p.links lnk
      let pg := (intOfRat dst.1).toNat
      let hPage := match (p.pageInfo pg).size with
        | some sz => sz.2
        | none => p.hPt
      let nobj := ((p.pageInfo pg).n).getD 0
      s ++ "/Dest [" ++ toString nobj ++ " 0 R /XYZ 0 " ++
        fmtFixed 2 (hPage - dst.2 * p.k) ++ " null]>>"
  put "endobj" (put s p)

/-- `putLinks`. -/
def putLinks (i : ℕ) (p : Fpdf) : Fpdf :=
  (p.pageLinks.getD (i - 1) []).foldl (fun p pl => putLink1 pl p) p

/-- Substring `ReplaceAll` on byte strings (callers guarantee a non-empty
pattern). -/
def replaceAllChars (s pat rep : List Char) : List Char :=
  if pat = [] then s
  else
    match s with
    | [] => []
    | c :: rest =>
      if pat.isPrefixOf (c :: rest) then rep ++ replaceAllChars ((c :: rest).drop pat.length) pat rep
      else c :: replaceAllChars rest pat rep
termination_by s.length
decreasing_by
  · simp_wf
    rename_i hpat _
    cases pat with
    | nil => exact absurd rfl hpat
    | cons a as => simp
  · simp_wf

/-- `putPage`. -/
def putPage (flate : List Char → List Char) (i : ℕ) (p : Fpdf) : Fpdf :=
  let p := newObj none p
  let p := put "<</Type /Page" p
  let p := put "/Parent 1 0 R" p
  let pi := p.pageInfo i
  let p := match pi.size with
    | some sz => put ("/MediaBox [0 0 " ++ fmtFixed 2 sz.1 ++ " " ++ fmtFixed 2 sz.2 ++ "]") p
    | none => p
  let p := match pi.rotation with
    | some rot => put ("/Rotate " ++ toString rot) p
    | none => p
  let p := put "/Resources 2 0 R" p
  let rows := p.pageLinks.getD (i - 1) []
  let p :=
    if rows.length > 0 then
      put ("/Annots [" ++ String.join (rows.map (fun pl => toString pl.objn ++ " 0 R ")) ++ "]") p
    else p
  let p := if p.withAlpha then put "/Group <</Type /Group /S /Transparency /CS /DeviceRGB>>" p else p
  let p := put ("/Contents " ++ toString (p.n + 1) ++ " 0 R>>") p
  let p := put "endobj" p
  let content := (String.intercalate "\n" (p.pages.getD (i - 1) [])).data ++ ['\n']
  let content :=
    if p.aliasNbPages ≠ "" then
      replaceAllChars content p.aliasNbPages.data (toString p.page).data
    else content
  let p := putStreamObject flate content p
  putLinks i p

/-- `putPages`: the numbering pre-pass over all pages, then emission of every
page object, then the forced pages-root object number 1. -/
def putPages (flate : List Char → List Char) (p : Fpdf) : Fpdf :=
  let p := ((List.range' 1 p.page).foldl allocPage (p, p.n)).1
  let p := (List.range' 1 p.page).foldl (fun p i => putPage flate i p) p
  let p := newObj (some 1) p
  let p := put "<</Type /Pages" p
  let kids := "/Kids [" ++
    String.join ((List.range' 1 p.page).map
      (fun i => toString (((p.pageInfo i).n).getD 0) ++ " 0 R ")) ++ "]"
  let p := put kids p
  let p := put ("/Count " ++ toString p.page) p
  let wh := if p.defOrientation ≠ "P" then (p.defPageSize.2, p.defPageSize.1) else p.defPageSize
  let p := put ("/MediaBox [0 0 " ++ fmtFixed 2 (wh.1 * p.k) ++ " " ++
    fmtFixed 2 (wh.2 * p.k) ++ "]") p
  let p := put ">>" p
  put "endobj" p

/-- An uppercase hexadecimal digit. -/
def hexDigit (n : ℕ) : Char :=
  if n < 10 then Char.ofNat (48 + n) else Char.ofNat (55 + n)

/-- Uppercase hexadecimal digits of a natural number. -/
def hexRep (n : ℕ) : List Char :=
  if h : n < 16 then [hexDigit n] else hexRep (n / 16) ++ [hexDigit (n % 16)]
termination_by n
decreasing_by omega

/-- `%0<width>X`. -/
def hexUpper (width n : ℕ) : String :=
  let d := hexRep n
  ⟨List.replicate (width - d.length) '0' ++ d⟩

/-- Insertion into a key-sorted Unicode-map entry list. -/
def insertUV (x : ℕ × PdfUV) : List (ℕ × PdfUV) → List (ℕ × PdfUV)
  | [] => [x]
  | y :: rest => if x.1 ≤ y.1 then x :: y :: rest else y :: insertUV x rest

/-- Sort Unicode-map entries by code (`sort.Ints` over the map keys). -/
def sortUV (l : List (ℕ × PdfUV)) : List (ℕ × PdfUV) := l.foldr insertUV []

/-- `toUnicodeCMap`. -/
def toUnicodeCMap (uv : List (ℕ × PdfUV)) : String :=
  let sorted := sortUV uv
  let ranges := String.join (sorted.filterMap (fun e =>
    match e.2 with
    | .uvRange start count =>
      some ("<" ++ hexUpper 2 e.1 ++ "> <" ++ hexUpper 2 (e.1 + count - 1) ++ "> <" ++
        hexUpper 4 start ++ ">\n")
    | _ => none))
  let chars := String.join (sorted.filterMap (fun e =>
    match e.2 with
    | .uvInt v => some ("<" ++ hexUpper 2 e.1 ++ "> <" ++ hexUpper 4 v ++ ">\n")
    | _ => none))
  let nbr := (sorted.filter (fun e => match e.2 with | .uvRange _ _ => true | _ => false)).length
  let nbc := (sorted.filter (fun e => match e.2 with | .uvInt _ => true | _ => false)).length
  "/CIDInit /ProcSet findresource begin\n12 dict begin\nbegincmap\n" ++
  "/CIDSystemInfo\n<</Registry (Adobe)\n/Ordering (UCS)\n/Supplement 0\n>> def\n" ++
  "/CMapName /Adobe-Identity-UCS def\n/CMapType 2 def\n" ++
  "1 begincodespacerange\n<00> <FF>\nendcodespacerange\n" ++
  (if nbr > 0 then toString nbr ++ " beginbfrange\n" ++ ranges ++ "endbfrange\n" else "") ++
  (if nbc > 0 then toString nbc ++ " beginbfchar\n" ++ chars ++ "endbfchar\n" else "") ++
  "endcmap\nCMapName currentdict /CMap defineresource pop\nend\nend"

/-- Emit one font object (with its optional preceding Unicode-map stream) and
record its object number in the font entry. -/
def putFont1 (flate : List Char → List Char) (entry : String × PdfFont) (p : Fpdf) :
    (String × PdfFont) × Fpdf :=
  let f := entry.2
  let tu :=
    if f.uv.length > 0 then
      let p := putStreamObject flate (toUnicodeCMap f.uv).data p
      (p.n, p)
    else (0, p)
  let toUnicodeObj := tu.1
  let p := newObj none tu.2
  let f := {f with n := p.n}
  let p := put "<</Type /Font" p
  let p := put ("/BaseFont /" ++ f.name) p
  let p := put "/Subtype /Type1" p
  let p := if f.name ≠ "Symbol" ∧ f.name ≠ "ZapfDingbats" then
    put "/Encoding /WinAnsiEncoding" p else p
  let p := if toUnicodeObj > 0 then put ("/ToUnicode " ++ toString toUnicodeObj ++ " 0 R") p else p
  let p := put ">>" p
  let p := put "endobj" p
  ((entry.1, f), p)

/-- `putFonts`: emit every registered font, updating recorded object numbers. -/
def putFonts (flate : List Char → List Char) (p : Fpdf) : Fpdf :=
  let res := p.fonts.foldl (fun (acc : List (String × PdfFont) × Fpdf) e =>
    let r := putFont1 flate e acc.2
    (acc.1 ++ [r.1], r.2)) ([], p)
  {res.2 with fonts := res.1}

/-- Emit one image object and record its object number. -/
def putImage1 (entry : String × PdfImage) (p : Fpdf) : (String × PdfImage) × Fpdf :=
  let p := newObj none p
  let info := {entry.2 with n := p.n}
  let p := put "<</Type /XObject" p
  let p := put "/Subtype /Image" p
  let p := put ("/Width " ++ toString info.w) p
  let p := put ("/Height " ++ toString info.h) p
  let p := put ("/ColorSpace /" ++ info.cs) p
  let p := put ("/BitsPerComponent " ++ toString info.bpc) p
  let p := if info.f ≠ "" then put ("/Filter /" ++ info.f) p else p
  let p := put ("/Length " ++ toString info.data.length ++ ">>") p
  let p := putStream info.data p
  let p := put "endobj" p
  ((entry.1, info), p)

/-- `putImages`. -/
def putImages (p : Fpdf) : Fpdf :=
  let res := p.images.foldl (fun (acc : List (String × PdfImage) × Fpdf) e =>
    let r := putImage1 e acc.2
    (acc.1 ++ [r.1], r.2)) ([], p)
  {res.2 with images := res.1}

/-- `putResourceDict`. -/
def putResourceDict (p : Fpdf) : Fpdf :=
  let p := put "/ProcSet [/PDF /Text /ImageB /ImageC /ImageI]" p
  let p := put "/Font <<" p
  let p := p.fonts.foldl (fun p e =>
    put ("/F" ++ toString e.2.i ++ " " ++ toString e.2.n ++ " 0 R") p) p
  let p := put ">>" p
  let p := put "/XObject <<" p
  let p := p.images.foldl (fun p e =>
    put ("/I" ++ toString e.2.i ++ " " ++ toString e.2.n ++ " 0 R") p) p
  put ">>" p

/-- `putResources`: fonts, then images, then the forced resource-dictionary
object number 2. -/
def putResources (flate : List Char → List Char) (p : Fpdf) : Fpdf :=
  let p := putFonts flate p
  let p := putImages p
  let p := newObj (some 2) p
  let p := put "<<" p
  let p := putResourceDict p
  let p := put ">>" p
  put "endobj" p

/-- Byte-lexicographic string order (Go string comparison on ASCII). -/
def leCharList : List Char → List Char → Bool
  | [], _ => true
  | _ :: _, [] => false
  | a :: as, b :: bs =>
    if a.toNat < b.toNat then true
    else if b.toNat < a.toNat then false
    else leCharList as bs

/-- Map write (`p.metadata[k] = v`). -/
def mapSet (l : List (String × String)) (key v : String) : List (String × String) :=
  if (lookupStr l key).isSome then l.map (fun e => if e.1 = key then (key, v) else e)
  else l ++ [(key, v)]

/-- Insertion into a key-sorted metadata list. -/
def insertMeta (x : String × String) : List (String × String) → List (String × String)
  | [] => [x]
  | y :: rest => if leCharList x.1.data y.1.data then x :: y :: rest else y :: insertMeta x rest

/-- `sort.Strings` over the metadata keys. -/
def sortedMeta (l : List (String × String)) : List (String × String) := l.foldr insertMeta []

/-- An apostrophe as a string. -/
def apos : String := String.singleton (Char.ofNat 39)

/-- `putInfo`.  The document's `creationDate` field holds the digits the
source obtains from the wall clock. -/
def putInfo (p : Fpdf) : Fpdf :=
  let date := p.creationDate.data
  let cd := "D:" ++ String.mk (date.take (date.length - 2)) ++ apos ++
    String.mk (date.drop (date.length - 2)) ++ apos
  let p := {p with metadata := mapSet p.metadata "CreationDate" cd}
  (sortedMeta p.metadata).foldl (fun p e => put ("/" ++ e.1 ++ " " ++ textString p e.2) p) p

/-- `putCatalog`. -/
def putCatalog (p : Fpdf) : Fpdf :=
  let nn := ((p.pageInfo 1).n).getD 0
  let p := put "/Type /Catalog" p
  let p := put "/Pages 1 0 R" p
  let p :=
    match p.zoomMode with
    | .zStr v =>
      let s := strLower v
      if s = "fullpage" then put ("/OpenAction [" ++ toString nn ++ " 0 R /Fit]") p
      else if s = "fullwidth" then put ("/OpenAction [" ++ toString nn ++ " 0 R /FitH null]") p
      else if s = "real" then put ("/OpenAction [" ++ toString nn ++ " 0 R /XYZ null null 1]") p
      else p
    | .zPct v => put ("/OpenAction [" ++ toString nn ++ " 0 R /XYZ null null " ++
        fmtFixed 2 (v / 100) ++ "]") p
    | .zNil => p
  if p.layoutMode = "single" then put "/PageLayout /SinglePage" p
  else if p.layoutMode = "continuous" then put "/PageLayout /OneColumn" p
  else if p.layoutMode = "two" then put "/PageLayout /TwoColumnLeft" p
  else p

/-- `putTrailer`. -/
def putTrailer (p : Fpdf) : Fpdf :=
  let p := put ("/Size " ++ toString (p.n + 1)) p
  let p := put ("/Root " ++ toString p.n ++ " 0 R") p
  put ("/Info " ++ toString (p.n - 1) ++ " 0 R") p

/-- The recorded offset of object `i` (a Go map read: last write wins). -/
def offFind (p : Fpdf) (i : ℕ) : Option ℕ :=
  p.offsets.foldl (fun acc pr => if pr.1 = i then some pr.2 else acc) none

/-- The recorded offset of object `i`, defaulting to 0 like a Go map read. -/
def offLookup (p : Fpdf) (i : ℕ) : ℕ := (offFind p i).getD 0

/-- `endDoc`: emit the whole document and the cross-reference table.  The
wall-clock date is passed in as `now`. -/
def endDoc (flate : List Char → List Char) (now : String) (p : Fpdf) : Fpdf :=
  let p := {p with creationDate := now}
  let p := putHeader p
  let p := putPages flate p
  let p := putResources flate p
  let p := newObj none p
  let p := put "<<" p
  let p := putInfo p
  let p := put ">>" p
  let p := put "endobj" p
  let p := newObj none p
  let p := put "<<" p
  let p := putCatalog p
  let p := put ">>" p
  let p := put "endobj" p
  let offset := getOffset p
  let p := put "xref" p
  let p := put ("0 " ++ toString (p.n + 1)) p
  let p := put "0000000000 65535 f " p
  let p := (List.range' 1 p.n).foldl
    (fun p i => put (padZeroNat 10 (offLookup p i) ++ " 00000 n ") p) p
  let p := put "trailer" p
  let p := put "<<" p
  let p := putTrailer p
  let p := put ">>" p
  let p := put "startxref" p
  let p := put (toString offset) p
  let p := put "%%EOF" p
  {p with state := 3}

/-- `Close`. -/
def Close (flate : List Char → List Char) (now : String) (p : Fpdf) : Except String Fpdf :=
  if p.state = 3 then .ok p else do
  let p ← if p.page = 0 then AddPage "" "" 0 p else .ok p
  let p := {(Footer {p with inFooter := true}) with inFooter := false}
  let p := endPage p
  .ok (endDoc flate now p)

/-! ## Theorems -/

/-- Fallback-width (`cw`-with-`?`-substitution) of a slice, the quantity the
`MultiCell` and `Write` scans accumulate in `l`. -/
def sliceWidth (p : Fpdf) (s : List Char) (j i : ℕ) : ℤ :=
  ((slice s j i).map (charWidth p)).sum

/-- The C5 property of one instrumented `Cell` call of `MultiCell`: a
justified line with internal spaces satisfies the padding equation, and only
the very last call is the final line. -/
def mcGood (p0 : Fpdf) (w : ℚ) (ev : MCEvent) : Prop :=
  (ev.kind = MCKind.sepBreak → 0 < countSpaces ev.text →
    GetStringWidth p0 ev.text + (countSpaces ev.text : ℚ) * ev.ws =
      w - 2 * p0.cMargin) ∧
  ev.kind ≠ MCKind.finalLine

/-- A concrete open-page document used by witnesses. -/
def c9doc : Fpdf := {emptyFpdf with state := 2, page := 1, pages := [[]], pageLinks := [[]]}

/-- A concrete document near the bottom of its page, with an active word
spacing and the registered helvetica font selected, used by witnesses. -/
def c6doc : Fpdf :=
  {emptyFpdf with
    state := 2
    page := 1
    pages := [[]]
    pageLinks := [[]]
    k := 1
    h := 100
    bMargin := 10
    pageBreakTrigger := 90
    y := 85
    x := 33
    ws := 2
    autoPageBreak := true
    fonts := [("helvetica", helveticaFont)]
    fontFamily := "helvetica"
    currentFont := some helveticaFont
    fontSizePt := 12
    fontSize := 12}

/-- Every embedded font table has no zero advance-width entry. -/
theorem assetFont_cw_ne_zero (key : String) (g : PdfFont)
    (hmem : (key, g) ∈ translatedFPDFFonts) (c : Fin 256) : g.cw c ≠ 0 := by
  simp only [translatedFPDFFonts, List.mem_cons, List.mem_singleton, List.not_mem_nil,
    or_false, Prod.mk.injEq] at hmem
  rcases hmem with ⟨_, hg⟩ | ⟨_, hg⟩ | ⟨_, hg⟩ <;> subst hg <;>
    simp [courierFont, courierbFont, helveticaFont, courierCW, helveticaCW]

/-- C3: with any selectable font (one whose width table comes from the
embedded registry) current, `GetStringWidth` returns the sum of the per-byte
advance widths described by the specification — table entry with the
zero-entry fallback to `'?'` — times `fontSize / 1000`.  (On these fonts no
table entry is zero, so the fallback never fires and the plain table sum the
code computes agrees with the specification's description.) -/
theorem c3_getStringWidth_spec (p : Fpdf) (f : PdfFont) (s : List Char)
    (hf : p.currentFont = some f)
    (hreg : ∃ key g, (key, g) ∈ translatedFPDFFonts ∧ f.cw = g.cw) :
    GetStringWidth p s = specStringWidth f p.fontSize s := by
  obtain ⟨key, g, hmem, hcw⟩ := hreg
  have hnz : ∀ c : Fin 256, f.cw c ≠ 0 := fun c => by
    rw [hcw]; exact assetFont_cw_ne_zero key g hmem c
  have hpt : ∀ c : Char, specCharWidth f c = f.cw (byteOf c) := fun c => by
    simp [specCharWidth, hnz (byteOf c)]
  have hfun : (Int.cast ∘ specCharWidth f : Char → ℚ) =
      (Int.cast ∘ fun c => f.cw (byteOf c)) := by
    funext c
    simp [Function.comp, hpt]
  simp [GetStringWidth, specStringWidth, hf, hfun]

/-- Witness for C3 at a concrete state and string. -/
theorem c3_witness :
    ({emptyFpdf with currentFont := some courierFont, fontSize := 12} : Fpdf).currentFont
        = some courierFont ∧
    (∃ key g, (key, g) ∈ translatedFPDFFonts ∧ courierFont.cw = g.cw) ∧
    GetStringWidth {emptyFpdf with currentFont := some courierFont, fontSize := 12}
        ['H', 'i'] =
      specStringWidth courierFont
        ({emptyFpdf with currentFont := some courierFont, fontSize := 12} : Fpdf).fontSize
        ['H', 'i'] :=
  ⟨rfl, ⟨"courier.php", courierFont, by simp [translatedFPDFFonts], rfl⟩,
    c3_getStringWidth_spec _ courierFont _ rfl
      ⟨"courier.php", courierFont, by simp [translatedFPDFFonts], rfl⟩⟩

/-- C4: `GetStringWidth` is additive over concatenation for a fixed state
(same font and size): the width of `s1 ++ s2` is the sum of the widths. -/
theorem c4_getStringWidth_additive (p : Fpdf) (s1 s2 : List Char) :
    GetStringWidth p (s1 ++ s2) = GetStringWidth p s1 + GetStringWidth p s2 := by
  unfold GetStringWidth
  cases p.currentFont with
  | none => simp
  | some f =>
    push_cast [List.map_append, List.sum_append]
    ring

/-- C10: with no current font, `GetStringWidth` returns 0 (and does not fail:
it is a total function in the model, as in the source, which has an early
`nil` check instead of dereferencing the font). -/
theorem c10_getStringWidth_no_font (p : Fpdf) (s : List Char)
    (h : p.currentFont = none) : GetStringWidth p s = 0 := by
  simp [GetStringWidth, h]

/-- Witness for C10: a freshly created document has no current font and
measures any string as 0. -/
theorem c10_witness :
    emptyFpdf.currentFont = none ∧ GetStringWidth emptyFpdf ['a', 'b', 'c'] = 0 :=
  ⟨rfl, c10_getStringWidth_no_font emptyFpdf ['a', 'b', 'c'] rfl⟩

/-- C8 counterexample: creating a document with the invalid unit token
`"furlong"` and the invalid page-size token `"bogus"` does not abort and
signals no error: the unit scale is silently substituted with the millimetre
scale, the page size with A4, the document comes out fully initialised
(state 0), and `lastError` is empty — the transient `setError` record made in
the unit switch is overwritten by the final `lastError = ""` line of `Reset`. -/
theorem c8_counterexample :
    (NewFpdf "P" "furlong" "bogus").k = 72 / 25.4 ∧
    (NewFpdf "P" "furlong" "bogus").lastError = "" ∧
    (NewFpdf "P" "furlong" "bogus").defPageSize =
      (595.28 / (72 / 25.4), 841.89 / (72 / 25.4)) ∧
    (NewFpdf "P" "furlong" "bogus").state = 0 := by
  have e1 : strLower (strTrim "furlong") = "furlong" := by decide
  have e2 : strLower (strTrim "bogus") = "bogus" := by decide
  have e3 : strLower (strTrim "P") = "p" := by decide
  refine ⟨?_, ?_, ?_, ?_⟩ <;>
    norm_num +decide [NewFpdf, Reset, resetUnitScale, emptyFpdf, setError, getPageSize,
      stdPageSizesFor, lookupStr, e1, e2, e3,
      SetMargins, SetAutoPageBreak, SetDisplayMode, SetCompression]

/-- C8 amended: an unrecognised unit token leaves the millimetre scale in
place of a failure, an unrecognised page-size token silently resolves to A4,
the constructor's result carries no error indication (`lastError` ends empty
because `Reset` clears it after the transient `setError`), and the call is
not aborted. -/
theorem c8_amended (orientation unit size : String) (p0 : Fpdf)
    (hu : strLower (strTrim unit) ∉ (["pt", "mm", "cm", "in"] : List String))
    (hs : strLower (strTrim size) ∉ (["a3", "a4", "a5", "letter", "legal"] : List String)) :
    (Reset orientation unit size p0).k = 72 / 25.4 ∧
    (Reset orientation unit size p0).lastError = "" ∧
    (Reset orientation unit size p0).defPageSize =
      (595.28 / (72 / 25.4), 841.89 / (72 / 25.4)) := by
  simp only [List.mem_cons, List.mem_singleton, List.not_mem_nil, or_false, not_or] at hu hs
  obtain ⟨hu1, hu2, hu3, hu4⟩ := hu
  obtain ⟨hs1, hs2, hs3, hs4, hs5⟩ := hs
  have hk : ∀ pp : Fpdf, resetUnitScale unit pp =
      setError ("incorrect unit: " ++ unit) {pp with k := 72.0 / 25.4} := by
    intro pp
    simp only [resetUnitScale]
    rw [if_neg hu1, if_neg hu2, if_neg hu3, if_neg hu4]
  by_cases ho : (strLower (strTrim orientation) = "" ∨ strLower (strTrim orientation) = "p" ∨
    strLower (strTrim orientation) = "portrait")
  all_goals have hs1a : ¬("a3" = strLower (strTrim size)) := fun h => hs1 h.symm
  all_goals have hs2a : ¬("a4" = strLower (strTrim size)) := fun h => hs2 h.symm
  all_goals have hs3a : ¬("a5" = strLower (strTrim size)) := fun h => hs3 h.symm
  all_goals have hs4a : ¬("letter" = strLower (strTrim size)) := fun h => hs4 h.symm
  all_goals have hs5a : ¬("legal" = strLower (strTrim size)) := fun h => hs5 h.symm
  all_goals by_cases hz : strLower (strTrim size) = ""
  all_goals norm_num +decide [Reset, hk, ho, setError, getPageSize, hz, hs1a, hs2a, hs3a,
    hs4a, hs5a, stdPageSizesFor, lookupStr, SetMargins, SetAutoPageBreak, SetDisplayMode,
    SetCompression]

/-- Computation rule for a successful `Except` bind. -/
@[simp] theorem ok_bind {α β : Type} (a : α) (f : α → Except String β) :
    (Except.ok a : Except String α) >>= f = f a := rfl

/-- Computation rule for a failed `Except` bind. -/
@[simp] theorem error_bind {α β : Type} (e : String) (f : α → Except String β) :
    (Except.error e : Except String α) >>= f = Except.error e := rfl

/-- `out` succeeds on an open page. -/
theorem out_ok (s : String) (p : Fpdf) (hstate : p.state = 2) :
    out s p = .ok {p with pages := p.pages.set (p.page - 1) (p.pages.getD (p.page - 1) [] ++ [s])} := by
  simp [out, hstate]

/-- The state modified by the optional `Link` record keeps the page open. -/
theorem linkState_eq (x y w h : ℚ) (l : LinkArg) (p : Fpdf) :
    (Link x y w h l p).state = p.state := rfl

/-- The drawing phase of `Cell` succeeds whenever the page is open and either
the text is empty or a font is current. -/
theorem cellDraw_ok (w h : ℚ) (txt : List Char) (border : BorderArg) (ln : ℤ)
    (align : String) (fill : Bool) (link : LinkArg) (p : Fpdf) (hstate : p.state = 2)
    (hok : txt = [] ∨ p.currentFont.isSome) :
    ∃ p2, cellDraw w h txt border ln align fill link p = .ok p2 := by
  rw [cellDraw]
  by_cases ht : txt = []
  · rw [if_pos ht]
    simp only [ok_bind]
    split
    · rw [out_ok _ _ hstate]
      simp only [ok_bind]
      exact ⟨_, rfl⟩
    · simp only [ok_bind]
      exact ⟨_, rfl⟩
  · have hf : p.currentFont.isSome := by
      rcases hok with hc | hc
      · exact absurd hc ht
      · exact hc
    have hn : p.currentFont.isNone = false := by
      rcases Option.isSome_iff_exists.mp hf with ⟨f, hf2⟩
      simp [hf2]
    rw [if_neg ht, hn]
    simp only [Bool.false_eq_true, if_false, ok_bind]
    have hst2 : (if link ≠ .lStr "" ∧ link ≠ .lNil then
        Link (p.x + cellDx (cellWidth w p) txt align p) (p.y + 0.5 * h - 0.5 * p.fontSize)
          (GetStringWidth p txt) p.fontSize link p
      else p).state = 2 := by
      split
      · rw [linkState_eq]
        exact hstate
      · exact hstate
    split
    · rw [out_ok _ _ hst2]
      simp only [ok_bind]
      exact ⟨_, rfl⟩
    · simp only [ok_bind]
      exact ⟨_, rfl⟩

/-- C9: with the page open and the page-break branch not taken, `Cell` fails
with the no-font panic exactly when its text is non-empty and no font is
current; with empty text it succeeds without a font, still appending any
requested fill/border operators to the page and advancing the cursor by the
resolved width, or by the height when a line break is requested. -/
theorem c9_cell_no_font_iff (w h : ℚ) (txt : List Char) (border : BorderArg) (ln : ℤ)
    (align : String) (fill : Bool) (link : LinkArg) (p : Fpdf)
    (hstate : p.state = 2)
    (hnb : ¬(p.y + h > p.pageBreakTrigger ∧ p.inHeader = false ∧ p.inFooter = false ∧
      AcceptPageBreak p = true)) :
    ((∃ e, Cell w h txt border ln align fill link p = .error e) ↔
      (txt ≠ [] ∧ p.currentFont = none)) ∧
    (txt = [] →
      ∃ p2, Cell w h txt border ln align fill link p = .ok p2 ∧
        (0 < ln → p2.y = p.y + h ∧ p2.x = (if ln = 1 then p.lMargin else p.x)) ∧
        (¬0 < ln → p2.x = p.x + cellWidth w p ∧ p2.y = p.y) ∧
        (cellRectOp (cellWidth w p) h border fill p ++ cellBorderOp (cellWidth w p) h border p ≠ "" →
          p2.pages = p.pages.set (p.page - 1) (p.pages.getD (p.page - 1) [] ++
            [cellRectOp (cellWidth w p) h border fill p ++ cellBorderOp (cellWidth w p) h border p]))) ∧
    (fill = true → (cellRectOp (cellWidth w p) h border fill p).length > 0) := by
  have hbreak : cellStartPageBreak h p = .ok p := by
    simp only [cellStartPageBreak]
    rw [if_neg hnb]
  refine ⟨⟨?_, ?_⟩, ?_, ?_⟩
  · rintro ⟨e, he⟩
    by_contra hcon
    rw [not_and_or] at hcon
    have hok : txt = [] ∨ p.currentFont.isSome := by
      rcases hcon with hc | hc
      · left
        simpa using hc
      · right
        exact Option.ne_none_iff_isSome.mp hc
    obtain ⟨p2, hp2⟩ := cellDraw_ok w h txt border ln align fill link p hstate hok
    rw [Cell] at he
    simp only [hbreak, ok_bind, hp2] at he
    exact Except.noConfusion he
  · rintro ⟨ht, hf⟩
    rw [Cell]
    simp only [hbreak, ok_bind]
    rw [cellDraw, if_neg ht]
    simp only [hf, Option.isNone_none, if_pos rfl, errPanic, error_bind]
    exact ⟨_, rfl⟩
  · intro ht
    subst ht
    rw [Cell]
    simp only [hbreak, ok_bind]
    rw [cellDraw, if_pos rfl]
    simp only [ok_bind]
    split
    · rename_i hne
      rw [out_ok _ _ hstate]
      simp only [ok_bind]
      refine ⟨_, rfl, ?_, ?_, ?_⟩
      · intro hln
        simp only [cellAdvance, hln, if_pos]
        constructor
        · split <;> rfl
        · split <;> simp_all
      · intro hln
        have : ¬ln > 0 := hln
        simp [cellAdvance, this]
      · intro h2
        simp only [cellAdvance]
        split
        · split <;> rfl
        · rfl
    · rename_i hne
      simp only [ne_eq, not_not] at hne
      simp only [ok_bind]
      refine ⟨_, rfl, ?_, ?_, ?_⟩
      · intro hln
        simp only [cellAdvance, hln, if_pos]
        constructor
        · split <;> rfl
        · split <;> simp_all
      · intro hln
        have : ¬ln > 0 := hln
        simp [cellAdvance, this]
      · intro h2
        exact absurd hne h2
  · intro hfill
    subst hfill
    simp only [cellRectOp, isBorder1, true_or, if_true, if_pos]
    simp only [String.length_append]
    have h4 : (" re " : String).length = 4 := rfl
    omega

/-- `out` can only append to the current page. -/
theorem out_shape (s : String) (p q : Fpdf) (hout : out s p = .ok q) :
    q = {p with pages := p.pages.set (p.page - 1) (p.pages.getD (p.page - 1) [] ++ [s])} := by
  rw [out] at hout
  split at hout
  · injection hout with h
    exact h.symm
  · split at hout
    · simp [errPanic] at hout
    · split at hout <;> simp [errPanic] at hout

/-- Consistency of the current font selection with the registry: exactly the
state `SetFont` leaves behind, and what `AddPage` relies on to re-apply the
font on a new page. -/
structure FontInv (p : Fpdf) : Prop where
  family_ne : p.fontFamily ≠ ""
  family_lower : strLower p.fontFamily = p.fontFamily
  style_upper : strUpper p.fontStyle = p.fontStyle
  style_noU : p.fontStyle.data.contains 'U' = false
  style_notIB : p.fontStyle ≠ "IB"
  lookup_eq : lookupStr p.fonts (p.fontFamily ++ p.fontStyle) = p.currentFont
  font_some : p.currentFont.isSome
  size_eq : p.fontSize = p.fontSizePt / p.k

/-- `strUpper` distributes over append. -/
theorem strUpper_append (a b : String) : strUpper (a ++ b) = strUpper a ++ strUpper b := by
  apply String.ext
  simp [strUpper, String.data_append]

/-- Removing `'U'` from a string that does not contain it is the identity. -/
theorem strRemoveChar_of_not_contains (s : String) (h : s.data.contains 'U' = false) :
    strRemoveChar s 'U' = s := by
  cases s with
  | mk d =>
    simp only [strRemoveChar]
    congr 1
    refine List.filter_eq_self.mpr (fun c hc => ?_)
    simp only [ne_eq, decide_eq_true_eq]
    rintro rfl
    simp only [List.contains_eq_any_beq] at h
    have htrue : (d.any fun x => 'U' == x) = true := List.any_eq_true.mpr ⟨'U', hc, by simp⟩
    rw [htrue] at h
    exact Bool.noConfusion h

/-- `'U'`-membership of the style argument rebuilt by `AddPage` equals the
underline flag. -/
theorem styleArg_contains (S0 : String) (ul : Bool) (hSU : S0.data.contains 'U' = false) :
    (S0 ++ (if ul then "U" else "")).data.contains 'U' = ul := by
  cases ul <;>
    simp only [if_true, if_false, String.data_append, List.contains_eq_any_beq,
      List.any_append, Bool.or_eq_true]
  · rw [← List.contains_eq_any_beq, hSU]
    simp
  · rw [← List.contains_eq_any_beq, hSU]
    simp

/-- `beginPage` opens the page. -/
@[simp] theorem beginPage_state (o s2 : String) (r : ℤ) (pp : Fpdf) :
    (beginPage o s2 r pp).state = 2 := by
  simp [beginPage, apply_ite Fpdf.state, ite_self]

/-- `beginPage` increments the page counter. -/
@[simp] theorem beginPage_page (o s2 : String) (r : ℤ) (pp : Fpdf) :
    (beginPage o s2 r pp).page = pp.page + 1 := by
  simp [beginPage, apply_ite Fpdf.page, ite_self]

/-- `beginPage` resets the horizontal cursor to the left margin. -/
@[simp] theorem beginPage_x (o s2 : String) (r : ℤ) (pp : Fpdf) :
    (beginPage o s2 r pp).x = pp.lMargin := by
  simp [beginPage, apply_ite Fpdf.x, ite_self]

/-- `beginPage` clears the font family. -/
@[simp] theorem beginPage_fontFamily (o s2 : String) (r : ℤ) (pp : Fpdf) :
    (beginPage o s2 r pp).fontFamily = "" := by
  simp [beginPage, apply_ite Fpdf.fontFamily, ite_self]

/-- `beginPage` keeps the word spacing. -/
@[simp] theorem beginPage_ws (o s2 : String) (r : ℤ) (pp : Fpdf) :
    (beginPage o s2 r pp).ws = pp.ws := by
  simp [beginPage, apply_ite Fpdf.ws, ite_self]

/-- `beginPage` keeps the unit scale. -/
@[simp] theorem beginPage_k (o s2 : String) (r : ℤ) (pp : Fpdf) :
    (beginPage o s2 r pp).k = pp.k := by
  simp [beginPage, apply_ite Fpdf.k, ite_self]

/-- `beginPage` keeps the content margin. -/
@[simp] theorem beginPage_cMargin (o s2 : String) (r : ℤ) (pp : Fpdf) :
    (beginPage o s2 r pp).cMargin = pp.cMargin := by
  simp [beginPage, apply_ite Fpdf.cMargin, ite_self]

/-- `beginPage` keeps the font registry. -/
@[simp] theorem beginPage_fonts (o s2 : String) (r : ℤ) (pp : Fpdf) :
    (beginPage o s2 r pp).fonts = pp.fonts := by
  simp [beginPage, apply_ite Fpdf.fonts, ite_self]

/-- `beginPage` keeps the font size in points. -/
@[simp] theorem beginPage_fontSizePt (o s2 : String) (r : ℤ) (pp : Fpdf) :
    (beginPage o s2 r pp).fontSizePt = pp.fontSizePt := by
  simp [beginPage, apply_ite Fpdf.fontSizePt, ite_self]

/-- `beginPage` keeps the font style letters. -/
@[simp] theorem beginPage_fontStyle (o s2 : String) (r : ℤ) (pp : Fpdf) :
    (beginPage o s2 r pp).fontStyle = pp.fontStyle := by
  simp [beginPage, apply_ite Fpdf.fontStyle, ite_self]

/-- `beginPage` keeps the underline flag. -/
@[simp] theorem beginPage_underline (o s2 : String) (r : ℤ) (pp : Fpdf) :
    (beginPage o s2 r pp).underline = pp.underline := by
  simp [beginPage, apply_ite Fpdf.underline, ite_self]

/-- `beginPage` keeps the current font. -/
@[simp] theorem beginPage_currentFont (o s2 : String) (r : ℤ) (pp : Fpdf) :
    (beginPage o s2 r pp).currentFont = pp.currentFont := by
  simp [beginPage, apply_ite Fpdf.currentFont, ite_self]

/-- `beginPage` keeps the font size in units. -/
@[simp] theorem beginPage_fontSize (o s2 : String) (r : ℤ) (pp : Fpdf) :
    (beginPage o s2 r pp).fontSize = pp.fontSize := by
  simp [beginPage, apply_ite Fpdf.fontSize, ite_self]

/-- `beginPage` keeps the left margin. -/
@[simp] theorem beginPage_lMargin (o s2 : String) (r : ℤ) (pp : Fpdf) :
    (beginPage o s2 r pp).lMargin = pp.lMargin := by
  simp [beginPage, apply_ite Fpdf.lMargin, ite_self]

/-- `beginPage` keeps the right margin. -/
@[simp] theorem beginPage_rMargin (o s2 : String) (r : ℤ) (pp : Fpdf) :
    (beginPage o s2 r pp).rMargin = pp.rMargin := by
  simp [beginPage, apply_ite Fpdf.rMargin, ite_self]

/-- `beginPage` keeps the bottom margin. -/
@[simp] theorem beginPage_bMargin (o s2 : String) (r : ℤ) (pp : Fpdf) :
    (beginPage o s2 r pp).bMargin = pp.bMargin := by
  simp [beginPage, apply_ite Fpdf.bMargin, ite_self]

/-- `beginPage` keeps the line width. -/
@[simp] theorem beginPage_lineWidth (o s2 : String) (r : ℤ) (pp : Fpdf) :
    (beginPage o s2 r pp).lineWidth = pp.lineWidth := by
  simp [beginPage, apply_ite Fpdf.lineWidth, ite_self]

/-- `beginPage` appends one page to the content table. -/
@[simp] theorem beginPage_pages (o s2 : String) (r : ℤ) (pp : Fpdf) :
    (beginPage o s2 r pp).pages = pp.pages ++ [[]] := by
  simp [beginPage, apply_ite Fpdf.pages, ite_self]

/-- `beginPage` moves the vertical cursor to the top margin. -/
@[simp] theorem beginPage_y (o s2 : String) (r : ℤ) (pp : Fpdf) :
    (beginPage o s2 r pp).y = pp.tMargin := by
  simp [beginPage, apply_ite Fpdf.y, ite_self]

/-- `beginPage` keeps the top margin. -/
@[simp] theorem beginPage_tMargin (o s2 : String) (r : ℤ) (pp : Fpdf) :
    (beginPage o s2 r pp).tMargin = pp.tMargin := by
  simp [beginPage, apply_ite Fpdf.tMargin, ite_self]

/-- `beginPage` keeps the footer flag. -/
@[simp] theorem beginPage_inFooter (o s2 : String) (r : ℤ) (pp : Fpdf) :
    (beginPage o s2 r pp).inFooter = pp.inFooter := by
  simp [beginPage, apply_ite Fpdf.inFooter, ite_self]

/-- `beginPage` keeps the auto-page-break flag. -/
@[simp] theorem beginPage_autoPageBreak (o s2 : String) (r : ℤ) (pp : Fpdf) :
    (beginPage o s2 r pp).autoPageBreak = pp.autoPageBreak := by
  simp [beginPage, apply_ite Fpdf.autoPageBreak, ite_self]

/-- `strRemoveChar` of the appended underline letter recovers the base style. -/
theorem strRemoveChar_append_U (S0 : String) (hSU : S0.data.contains 'U' = false) :
    strRemoveChar (S0 ++ "U") 'U' = S0 := by
  have h1 : strRemoveChar S0 'U' = S0 := strRemoveChar_of_not_contains S0 hSU
  cases S0 with
  | mk d =>
    apply String.ext
    simp only [strRemoveChar, String.data_append, List.filter_append]
    have h2 : List.filter (fun c => decide (c ≠ 'U')) d = d := by
      have := congrArg String.data h1
      simpa [strRemoveChar] using this
    rw [h2]
    simp

/-- An `out` guarded by an arbitrary condition on an open page only appends
to the current page's content. -/
theorem out_opt_ok (c : Prop) [Decidable c] (s : String) (pp : Fpdf) (hpp : pp.state = 2) :
    ∃ pages2, (if c then out s pp else .ok pp) = .ok {pp with pages := pages2} := by
  split
  · exact ⟨_, out_ok s pp hpp⟩
  · exact ⟨pp.pages, rfl⟩

/-- `SetFont` as invoked by `AddPage` right after `beginPage` (the font
family having been reset to empty): re-selects the registered font, leaving
every field except the font selection, the underline flag and the page
contents unchanged. -/
theorem setFont_fresh (p1 : Fpdf) (F S0 : String) (ul : Bool) (sz : ℚ)
    (hst : p1.state = 2) (hF : F ≠ "") (hFl : strLower F = F)
    (hS : strUpper S0 = S0) (hSU : S0.data.contains 'U' = false) (hSIB : S0 ≠ "IB")
    (hfam : p1.fontFamily = "")
    (hlk : (lookupStr p1.fonts (F ++ S0)).isSome) :
    ∃ pages2, SetFont F (S0 ++ (if ul then "U" else "")) sz p1 =
      .ok {p1 with
        pages := pages2
        fontFamily := F
        fontStyle := S0
        underline := ul
        fontSizePt := (if sz = 0 then p1.fontSizePt else sz)
        fontSize := (if sz = 0 then p1.fontSizePt else sz) / p1.k
        currentFont := lookupStr p1.fonts (F ++ S0)} := by
  have hne : ("" = F) = False := by
    simp only [eq_iff_iff, iff_false]
    exact fun h => hF h.symm
  cases ul with
  | true =>
    have hsarg : strUpper (S0 ++ "U") = S0 ++ "U" := by
      rw [strUpper_append, hS]
      rfl
    have hcont : strContainsChar (S0 ++ "U") 'U' = true := by
      simpa [strContainsChar] using styleArg_contains S0 true hSU
    have hrem : strRemoveChar (S0 ++ "U") 'U' = S0 := strRemoveChar_append_U S0 hSU
    rw [SetFont]
    simp only [if_true, if_neg hF, hFl, hsarg, hcont, hrem, if_neg hSIB, hfam, hne,
      false_and, if_false, if_true, hlk, ok_bind]
    exact out_opt_ok _ _ _ hst
  | false =>
    have happ : S0 ++ "" = S0 := by
      apply String.ext
      simp [String.data_append]
    have hcont : strContainsChar S0 'U' = false := by
      simpa [strContainsChar] using hSU
    rw [SetFont]
    simp only [if_false, happ, hS, hcont, Bool.false_eq_true, if_neg hSIB, if_neg hF,
      hFl, hfam, hne, false_and, hlk, ok_bind]
    exact out_opt_ok _ _ _ hst

/-- `SetFont` when the requested family, style and size already match the
current selection: the early return only refreshes the underline flag. -/
theorem setFont_matched (p2 : Fpdf) (F S0 : String) (ul : Bool) (sz : ℚ)
    (hfam : p2.fontFamily = F) (hsty : p2.fontStyle = S0)
    (hF : F ≠ "") (hFl : strLower F = F)
    (hS : strUpper S0 = S0) (hSU : S0.data.contains 'U' = false) (hSIB : S0 ≠ "IB")
    (hsz : (if sz = 0 then p2.fontSizePt else sz) = p2.fontSizePt) :
    SetFont F (S0 ++ (if ul then "U" else "")) sz p2 = .ok {p2 with underline := ul} := by
  cases ul with
  | true =>
    have hsarg : strUpper (S0 ++ "U") = S0 ++ "U" := by
      rw [strUpper_append, hS]
      rfl
    have hcont : strContainsChar (S0 ++ "U") 'U' = true := by
      simpa [strContainsChar] using styleArg_contains S0 true hSU
    have hrem : strRemoveChar (S0 ++ "U") 'U' = S0 := strRemoveChar_append_U S0 hSU
    rw [SetFont]
    simp only [if_true, if_neg hF, hFl, hsarg, hcont, hrem, if_neg hSIB]
    rw [if_pos]
    exact ⟨hfam, hsty, hsz.symm⟩
  | false =>
    have happ : S0 ++ "" = S0 := by
      apply String.ext
      simp [String.data_append]
    have hcont : strContainsChar S0 'U' = false := by
      simpa [strContainsChar] using hSU
    rw [SetFont]
    simp only [if_false, happ, hS, hcont, Bool.false_eq_true, if_neg hSIB, if_neg hF, hFl]
    rw [if_pos]
    exact ⟨hfam, hsty, hsz.symm⟩

/-- Composition principle for `Except` binds used to walk the `AddPage`
restore chain. -/
theorem bind_effects (X : Except String Fpdf) (f : Fpdf → Except String Fpdf)
    (P Q : Fpdf → Prop) (hX : ∃ b, X = .ok b ∧ P b)
    (hf : ∀ b, P b → ∃ c, f b = .ok c ∧ Q c) :
    ∃ c, (X >>= f) = .ok c ∧ Q c := by
  obtain ⟨b, hb, hPb⟩ := hX
  obtain ⟨c, hc, hQc⟩ := hf b hPb
  refine ⟨c, ?_, hQc⟩
  rw [hb]
  simp only [ok_bind]
  exact hc

/-- The restore tail of `AddPage`, on a state whose current selection satisfies
the font-registry hypotheses: it succeeds, opens a fresh page with the cursor
at the top-left margin corner, and re-applies the captured font and graphics
state. -/
theorem addPageRestore_effects (F S0 : String) (ul : Bool) (sz lw : ℚ)
    (dc fc tc : String) (cf : Bool) (o s2 : String) (r : ℤ) (pf : Fpdf)
    (hF : F ≠ "") (hFl : strLower F = F) (hS : strUpper S0 = S0)
    (hSU : S0.data.contains 'U' = false) (hSIB : S0 ≠ "IB")
    (hlk : (lookupStr pf.fonts (F ++ S0)).isSome) :
    ∃ q, addPageRestore ⟨F, S0 ++ (if ul then "U" else ""), sz, lw, dc, fc, tc, cf⟩
        o s2 r pf = .ok q ∧
      q.state = 2 ∧ q.page = pf.page + 1 ∧ q.ws = pf.ws ∧ q.k = pf.k ∧
      q.cMargin = pf.cMargin ∧ q.x = pf.lMargin ∧ q.y = pf.tMargin ∧
      q.lMargin = pf.lMargin ∧ q.rMargin = pf.rMargin ∧ q.bMargin = pf.bMargin ∧
      q.tMargin = pf.tMargin ∧ q.inFooter = pf.inFooter ∧
      q.autoPageBreak = pf.autoPageBreak ∧ q.fonts = pf.fonts ∧
      q.fontFamily = F ∧ q.fontStyle = S0 ∧ q.underline = ul ∧
      q.currentFont = lookupStr pf.fonts (F ++ S0) ∧
      q.fontSizePt = (if sz = 0 then pf.fontSizePt else sz) ∧
      q.fontSize = (if sz = 0 then pf.fontSizePt else sz) / pf.k := by
  have hB : (beginPage o s2 r pf).state = 2 := beginPage_state o s2 r pf
  simp only [addPageRestore]
  refine bind_effects _ _
    (fun b => b.state = 2 ∧ restoreStable b = restoreStable (beginPage o s2 r pf) ∧
      b.fontFamily = "" ∧ b.fontSizePt = pf.fontSizePt) _
    ⟨_, out_ok "2 J" _ hB, beginPage_state o s2 r pf, rfl,
      beginPage_fontFamily o s2 r pf, beginPage_fontSizePt o s2 r pf⟩ ?_
  intro b1 hP1
  obtain ⟨hst1, hstab1, hfam1, hszp1⟩ := hP1
  refine bind_effects _ _
    (fun b => b.state = 2 ∧ restoreStable b = restoreStable (beginPage o s2 r pf) ∧
      b.fontFamily = "" ∧ b.fontSizePt = pf.fontSizePt ∧ b.lineWidth = lw) _
    ⟨_, out_ok _ _ hst1, hst1, hstab1, hfam1, hszp1, rfl⟩ ?_
  intro b2 hP2
  obtain ⟨hst2, hstab2, hfam2, hszp2, hlw2⟩ := hP2
  have hstab2d := hstab2
  simp only [restoreStable, Prod.mk.injEq] at hstab2d
  obtain ⟨hpage2, hws2, hk2, hcm2, hx2, hy2, hlm2, hrm2, hbm2, htm2, hif2, hapb2,
    hfonts2⟩ := hstab2d
  have hfonts2p : b2.fonts = pf.fonts := by simpa using hfonts2
  have hk2p : b2.k = pf.k := by simpa using hk2
  have hlk2 : (lookupStr b2.fonts (F ++ S0)).isSome := by rw [hfonts2p]; exact hlk
  rw [if_pos hF]
  obtain ⟨pg3, e3⟩ := setFont_fresh b2 F S0 ul sz hst2 hF hFl hS hSU hSIB hfam2 hlk2
  refine bind_effects _ _
    (fun b => b.state = 2 ∧ restoreStable b = restoreStable (beginPage o s2 r pf) ∧
      b.fontFamily = F ∧ b.fontStyle = S0 ∧ b.underline = ul ∧
      b.currentFont = lookupStr pf.fonts (F ++ S0) ∧
      b.fontSizePt = (if sz = 0 then pf.fontSizePt else sz) ∧
      b.fontSize = (if sz = 0 then pf.fontSizePt else sz) / pf.k ∧
      b.lineWidth = lw) _
    ⟨_, e3, hst2, hstab2, rfl, rfl, rfl, ?_, ?_, ?_, hlw2⟩ ?_
  · show lookupStr b2.fonts (F ++ S0) = lookupStr pf.fonts (F ++ S0)
    rw [hfonts2p]
  · show (if sz = 0 then b2.fontSizePt else sz) = (if sz = 0 then pf.fontSizePt else sz)
    rw [hszp2]
  · show (if sz = 0 then b2.fontSizePt else sz) / b2.k =
      (if sz = 0 then pf.fontSizePt else sz) / pf.k
    rw [hszp2, hk2p]
  intro b3 hP3
  obtain ⟨hst3, hstab3, hfam3, hsty3, hul3, hcf3, hszp3, hfsz3, hlw3⟩ := hP3
  obtain ⟨pg4, e4⟩ := out_opt_ok (dc ≠ "0 G") dc {b3 with drawColor := dc} hst3
  refine bind_effects _ _
    (fun b => b.state = 2 ∧ restoreStable b = restoreStable (beginPage o s2 r pf) ∧
      b.fontFamily = F ∧ b.fontStyle = S0 ∧ b.underline = ul ∧
      b.currentFont = lookupStr pf.fonts (F ++ S0) ∧
      b.fontSizePt = (if sz = 0 then pf.fontSizePt else sz) ∧
      b.fontSize = (if sz = 0 then pf.fontSizePt else sz) / pf.k ∧
      b.lineWidth = lw ∧ b.drawColor = dc) _
    ⟨_, e4, hst3, hstab3, hfam3, hsty3, hul3, hcf3, hszp3, hfsz3, hlw3, rfl⟩ ?_
  intro b4 hP4
  obtain ⟨hst4, hstab4, hfam4, hsty4, hul4, hcf4, hszp4, hfsz4, hlw4, hdc4⟩ := hP4
  obtain ⟨pg5, e5⟩ := out_opt_ok (fc ≠ "0 g") fc {b4 with fillColor := fc} hst4
  refine bind_effects _ _
    (fun b => b.state = 2 ∧ restoreStable b = restoreStable (beginPage o s2 r pf) ∧
      b.fontFamily = F ∧ b.fontStyle = S0 ∧ b.underline = ul ∧
      b.currentFont = lookupStr pf.fonts (F ++ S0) ∧
      b.fontSizePt = (if sz = 0 then pf.fontSizePt else sz) ∧
      b.fontSize = (if sz = 0 then pf.fontSizePt else sz) / pf.k ∧
      b.lineWidth = lw ∧ b.drawColor = dc ∧ b.fillColor = fc) _
    ⟨_, e5, hst4, hstab4, hfam4, hsty4, hul4, hcf4, hszp4, hfsz4, hlw4, hdc4, rfl⟩ ?_
  intro b5 hP5
  obtain ⟨hst5, hstab5, hfam5, hsty5, hul5, hcf5, hszp5, hfsz5, hlw5, hdc5, hfc5⟩ := hP5
  simp only [Header]
  rw [if_neg]
  rotate_left
  · simp [hlw5]
  simp only [ok_bind]
  refine bind_effects _ _
    (fun b => b.state = 2 ∧ restoreStable b = restoreStable (beginPage o s2 r pf) ∧
      b.fontFamily = F ∧ b.fontStyle = S0 ∧ b.underline = ul ∧
      b.currentFont = lookupStr pf.fonts (F ++ S0) ∧
      b.fontSizePt = (if sz = 0 then pf.fontSizePt else sz) ∧
      b.fontSize = (if sz = 0 then pf.fontSizePt else sz) / pf.k ∧
      b.drawColor = dc ∧ b.fillColor = fc) _ ?_ ?_
  · rw [if_pos hF]
    refine ⟨_, setFont_matched _ F S0 ul sz ?_ ?_ hF hFl hS hSU hSIB ?_,
      hst5, hstab5, hfam5, hsty5, rfl, hcf5, hszp5, hfsz5, hdc5, hfc5⟩
    · exact hfam5
    · exact hsty5
    · by_cases hsz0 : sz = 0
      · rw [if_pos hsz0]
      · rw [if_neg hsz0]
        have h1 : b5.fontSizePt = sz := by rw [hszp5, if_neg hsz0]
        exact h1.symm
  intro b9 hP9
  obtain ⟨hst9, hstab9, hfam9, hsty9, hul9, hcf9, hszp9, hfsz9, hdc9, hfc9⟩ := hP9
  rw [if_neg]
  rotate_left
  · simp [hdc9]
  simp only [ok_bind]
  rw [if_neg]
  rotate_left
  · simp [hfc9]
  simp only [ok_bind]
  have hstab9d := hstab9
  simp only [restoreStable, Prod.mk.injEq] at hstab9d
  obtain ⟨hpage9, hws9, hk9, hcm9, hx9, hy9, hlm9, hrm9, hbm9, htm9, hif9, hapb9,
    hfonts9⟩ := hstab9d
  refine ⟨_, rfl, hst9, ?_, ?_, ?_, ?_, ?_, ?_, ?_, ?_, ?_, ?_, ?_, ?_, ?_,
    hfam9, hsty9, hul9, hcf9, hszp9, hfsz9⟩
  · simpa using hpage9
  · simpa using hws9
  · simpa using hk9
  · simpa using hcm9
  · simpa using hx9
  · simpa using hy9
  · simpa using hlm9
  · simpa using hrm9
  · simpa using hbm9
  · simpa using htm9
  · simpa using hif9
  · simpa using hapb9
  · simpa using hfonts9

/-- `AddPage` on a document that is not closed and has a consistent font
selection: it succeeds, advances the page counter, moves the cursor to the
top-left corner, preserves word spacing, margins and scale, and re-selects
the same font at the same size. -/
theorem addPage_effects (o s2 : String) (r : ℤ) (p : Fpdf)
    (hst : p.state ≠ 3) (hinv : FontInv p) :
    ∃ q, AddPage o s2 r p = .ok q ∧
      q.state = 2 ∧ q.page = p.page + 1 ∧ q.ws = p.ws ∧ q.k = p.k ∧
      q.cMargin = p.cMargin ∧ q.x = p.lMargin ∧ q.y = p.tMargin ∧
      q.lMargin = p.lMargin ∧ q.rMargin = p.rMargin ∧ q.bMargin = p.bMargin ∧
      q.tMargin = p.tMargin ∧ q.autoPageBreak = p.autoPageBreak ∧
      q.fonts = p.fonts ∧ q.fontFamily = p.fontFamily ∧
      q.fontStyle = p.fontStyle ∧ q.underline = p.underline ∧
      q.currentFont = p.currentFont ∧ q.fontSizePt = p.fontSizePt ∧
      q.fontSize = p.fontSize := by
  have h3 : (p.state = 3) = False := eq_false hst
  simp only [AddPage, h3, if_false]
  by_cases hpg : p.page > 0
  · rw [if_pos hpg]
    have hlk2 : (lookupStr
        (endPage {(Footer {p with inFooter := true}) with inFooter := false}).fonts
        (p.fontFamily ++ p.fontStyle)).isSome := by
      show (lookupStr p.fonts (p.fontFamily ++ p.fontStyle)).isSome
      rw [hinv.lookup_eq]
      exact hinv.font_some
    obtain ⟨q, hq, c1, c2, c3, c4, c5, c6, c7, c8, c9, c10, c11, c12, c13, c14, c15,
      c16, c17, c18, c19, c20⟩ :=
      addPageRestore_effects p.fontFamily p.fontStyle p.underline p.fontSizePt
        p.lineWidth p.drawColor p.fillColor p.textColor p.colorFlag o s2 r
        (endPage {(Footer {p with inFooter := true}) with inFooter := false})
        hinv.family_ne hinv.family_lower hinv.style_upper hinv.style_noU
        hinv.style_notIB hlk2
    refine ⟨q, hq, c1, c2, c3, c4, c5, c6, c7, c8, c9, c10, c11, c13, c14, c15,
      c16, c17, ?_, ?_, ?_⟩
    · rw [c18]
      show lookupStr p.fonts (p.fontFamily ++ p.fontStyle) = p.currentFont
      exact hinv.lookup_eq
    · rw [c19]
      split <;> rfl
    · rw [c20]
      split <;> exact hinv.size_eq.symm
  · rw [if_neg hpg]
    have hlk0 : (lookupStr p.fonts (p.fontFamily ++ p.fontStyle)).isSome := by
      rw [hinv.lookup_eq]
      exact hinv.font_some
    obtain ⟨q, hq, c1, c2, c3, c4, c5, c6, c7, c8, c9, c10, c11, c12, c13, c14, c15,
      c16, c17, c18, c19, c20⟩ :=
      addPageRestore_effects p.fontFamily p.fontStyle p.underline p.fontSizePt
        p.lineWidth p.drawColor p.fillColor p.textColor p.colorFlag o s2 r p
        hinv.family_ne hinv.family_lower hinv.style_upper hinv.style_noU
        hinv.style_notIB hlk0
    refine ⟨q, hq, c1, c2, c3, c4, c5, c6, c7, c8, c9, c10, c11, c13, c14, c15,
      c16, c17, ?_, ?_, ?_⟩
    · rw [c18, hinv.lookup_eq]
    · rw [c19]
      split <;> rfl
    · rw [c20]
      split <;> exact hinv.size_eq.symm

/-- The page-break guard of `Cell` when the break condition holds: it clears
any positive word spacing, adds a page, restores the horizontal cursor to its
previous value, and re-emits the word-spacing operator on the new page. -/
theorem cellStartPageBreak_break (h : ℚ) (p : Fpdf)
    (hst : p.state = 2) (hinv : FontInv p)
    (hcond : p.y + h > p.pageBreakTrigger) (hih : p.inHeader = false)
    (hif : p.inFooter = false) (hapb : AcceptPageBreak p = true) :
    ∃ q, cellStartPageBreak h p = .ok q ∧
      q.state = 2 ∧ q.page = p.page + 1 ∧ q.x = p.x ∧ q.ws = p.ws ∧ q.y = p.tMargin ∧
      q.k = p.k ∧ q.cMargin = p.cMargin ∧ q.lMargin = p.lMargin ∧
      q.rMargin = p.rMargin ∧ q.bMargin = p.bMargin ∧ q.tMargin = p.tMargin ∧
      q.autoPageBreak = p.autoPageBreak ∧ q.fonts = p.fonts ∧
      q.fontFamily = p.fontFamily ∧ q.fontStyle = p.fontStyle ∧
      q.underline = p.underline ∧ q.currentFont = p.currentFont ∧
      q.fontSizePt = p.fontSizePt ∧ q.fontSize = p.fontSize ∧
      (p.ws > 0 → ∃ base : List (List String), q.pages = base.set (q.page - 1)
        (base.getD (q.page - 1) [] ++ [fmtFixed 3 (p.ws * p.k) ++ " Tw"])) := by
  simp only [cellStartPageBreak]
  rw [if_pos ⟨hcond, hih, hif, hapb⟩]
  by_cases hws : p.ws > 0
  · rw [if_pos hws]
    refine bind_effects _ _
      (fun b => b.state = 2 ∧ FontInv b ∧ b.page = p.page ∧ b.tMargin = p.tMargin ∧
        b.k = p.k ∧ b.cMargin = p.cMargin ∧ b.lMargin = p.lMargin ∧
        b.rMargin = p.rMargin ∧ b.bMargin = p.bMargin ∧
        b.autoPageBreak = p.autoPageBreak ∧ b.fonts = p.fonts ∧
        b.fontFamily = p.fontFamily ∧ b.fontStyle = p.fontStyle ∧
        b.underline = p.underline ∧ b.currentFont = p.currentFont ∧
        b.fontSizePt = p.fontSizePt ∧ b.fontSize = p.fontSize) _
      ⟨_, out_ok "0 Tw" {p with ws := 0} hst, hst,
        ⟨hinv.family_ne, hinv.family_lower, hinv.style_upper, hinv.style_noU,
          hinv.style_notIB, hinv.lookup_eq, hinv.font_some, hinv.size_eq⟩,
        rfl, rfl, rfl, rfl, rfl, rfl, rfl, rfl, rfl, rfl, rfl, rfl, rfl, rfl, rfl⟩ ?_
    intro b1 hP1
    obtain ⟨hb1st, hb1inv, hb1pg, hb1tm, hb1k, hb1cm, hb1lm, hb1rm, hb1bm, hb1apb,
      hb1fonts, hb1ff, hb1fs, hb1ul, hb1cf, hb1szp, hb1sz⟩ := hP1
    obtain ⟨q1, hq1, a1, a2, a3, a4, a5, a6, a7, a8, a9, a10, a11, a12, a13, a14,
      a15, a16, a17, a18, a19⟩ :=
      addPage_effects b1.curOrientation "" b1.curRotation b1 (by rw [hb1st]; omega) hb1inv
    refine bind_effects _ _
      (fun b => b.state = 2 ∧ b.page = p.page + 1 ∧ b.y = p.tMargin ∧
        b.k = p.k ∧ b.cMargin = p.cMargin ∧ b.lMargin = p.lMargin ∧
        b.rMargin = p.rMargin ∧ b.bMargin = p.bMargin ∧ b.tMargin = p.tMargin ∧
        b.autoPageBreak = p.autoPageBreak ∧ b.fonts = p.fonts ∧
        b.fontFamily = p.fontFamily ∧ b.fontStyle = p.fontStyle ∧
        b.underline = p.underline ∧ b.currentFont = p.currentFont ∧
        b.fontSizePt = p.fontSizePt ∧ b.fontSize = p.fontSize) _
      ⟨q1, hq1, a1, by rw [a2, hb1pg], by rw [a7, hb1tm], by rw [a4, hb1k],
        by rw [a5, hb1cm], by rw [a8, hb1lm], by rw [a9, hb1rm], by rw [a10, hb1bm],
        by rw [a11, hb1tm], by rw [a12, hb1apb], by rw [a13, hb1fonts],
        by rw [a14, hb1ff], by rw [a15, hb1fs], by rw [a16, hb1ul],
        by rw [a17, hb1cf], by rw [a18, hb1szp], by rw [a19, hb1sz]⟩ ?_
    intro b2 hP2
    obtain ⟨hb2st, hb2pg, hb2y, hb2k, hb2cm, hb2lm, hb2rm, hb2bm, hb2tm, hb2apb,
      hb2fonts, hb2ff, hb2fs, hb2ul, hb2cf, hb2szp, hb2sz⟩ := hP2
    rw [if_pos hws,
      out_ok (fmtFixed 3 (p.ws * p.k) ++ " Tw") {b2 with x := p.x, ws := p.ws} hb2st]
    exact ⟨_, rfl, hb2st, hb2pg, rfl, rfl, hb2y, hb2k, hb2cm, hb2lm, hb2rm, hb2bm,
      hb2tm, hb2apb, hb2fonts, hb2ff, hb2fs, hb2ul, hb2cf, hb2szp, hb2sz,
      fun _ => ⟨b2.pages, rfl⟩⟩
  · rw [if_neg hws]
    simp only [ok_bind]
    obtain ⟨q1, hq1, a1, a2, a3, a4, a5, a6, a7, a8, a9, a10, a11, a12, a13, a14,
      a15, a16, a17, a18, a19⟩ :=
      addPage_effects p.curOrientation "" p.curRotation p (by rw [hst]; omega) hinv
    refine bind_effects _ _
      (fun b => b.state = 2 ∧ b.page = p.page + 1 ∧ b.ws = p.ws ∧ b.y = p.tMargin ∧
        b.k = p.k ∧ b.cMargin = p.cMargin ∧ b.lMargin = p.lMargin ∧
        b.rMargin = p.rMargin ∧ b.bMargin = p.bMargin ∧ b.tMargin = p.tMargin ∧
        b.autoPageBreak = p.autoPageBreak ∧ b.fonts = p.fonts ∧
        b.fontFamily = p.fontFamily ∧ b.fontStyle = p.fontStyle ∧
        b.underline = p.underline ∧ b.currentFont = p.currentFont ∧
        b.fontSizePt = p.fontSizePt ∧ b.fontSize = p.fontSize) _
      ⟨q1, hq1, a1, a2, a3, a7, a4, a5, a8, a9, a10, a11, a12, a13, a14, a15, a16,
        a17, a18, a19⟩ ?_
    intro b2 hP2
    obtain ⟨hb2st, hb2pg, hb2ws, hb2y, hb2k, hb2cm, hb2lm, hb2rm, hb2bm, hb2tm,
      hb2apb, hb2fonts, hb2ff, hb2fs, hb2ul, hb2cf, hb2szp, hb2sz⟩ := hP2
    rw [if_neg hws]
    exact ⟨_, rfl, hb2st, hb2pg, rfl, hb2ws, hb2y, hb2k, hb2cm, hb2lm, hb2rm, hb2bm,
      hb2tm, hb2apb, hb2fonts, hb2ff, hb2fs, hb2ul, hb2cf, hb2szp, hb2sz,
      fun hpos => absurd hpos hws⟩

/-- **C6.** For every `Cell` call where auto-page-break is enabled, the
document is not inside a header or footer render, and `y + h` strictly
exceeds `pageHeight - bottomMargin`, a page break is performed before any
drawing (the whole call reduces to the drawing phase on the post-break
state), and after the break the horizontal cursor equals the one before it
and any active word-spacing value is re-applied on the new page. -/
theorem c6_cell_page_break (w h : ℚ) (txt : List Char) (border : BorderArg)
    (ln : ℤ) (align : String) (fill : Bool) (link : LinkArg) (p : Fpdf)
    (hst : p.state = 2) (hinv : FontInv p)
    (htrig : p.pageBreakTrigger = p.h - p.bMargin)
    (hbreak : p.y + h > p.h - p.bMargin)
    (hih : p.inHeader = false) (hif : p.inFooter = false)
    (hapb : p.autoPageBreak = true) :
    ∃ q, cellStartPageBreak h p = .ok q ∧
      Cell w h txt border ln align fill link p =
        cellDraw w h txt border ln align fill link q ∧
      q.page = p.page + 1 ∧ q.x = p.x ∧ q.ws = p.ws ∧
      (p.ws > 0 → ∃ base : List (List String), q.pages = base.set (q.page - 1)
        (base.getD (q.page - 1) [] ++ [fmtFixed 3 (p.ws * p.k) ++ " Tw"])) := by
  obtain ⟨q, hq, c1, c2, c3, c4, c5, c6, c7, c8, c9, c10, c11, c12, c13, c14, c15,
    c16, c17, c18, c19, cev⟩ :=
    cellStartPageBreak_break h p hst hinv (by rw [htrig]; exact hbreak) hih hif
      (by simp only [AcceptPageBreak]; exact hapb)
  refine ⟨q, hq, ?_, c2, c3, c4, cev⟩
  simp only [Cell]
  rw [hq]
  simp only [ok_bind]

/-- Witness for C6 at a concrete state: the cell does not fit, the break is
taken, the cursor column survives it and the 2-unit word spacing is re-emitted
on the new page. -/
theorem c6_witness :
    c6doc.state = 2 ∧ c6doc.y + 10 > c6doc.h - c6doc.bMargin ∧ c6doc.ws > 0 ∧
    (∃ q, cellStartPageBreak 10 c6doc = .ok q ∧
      Cell 50 10 [Char.ofNat 97] (.bInt 0) 0 "" false .lNil c6doc =
        cellDraw 50 10 [Char.ofNat 97] (.bInt 0) 0 "" false .lNil q ∧
      q.page = c6doc.page + 1 ∧ q.x = c6doc.x ∧ q.ws = c6doc.ws ∧
      (c6doc.ws > 0 → ∃ base : List (List String), q.pages = base.set (q.page - 1)
        (base.getD (q.page - 1) [] ++ [fmtFixed 3 (c6doc.ws * c6doc.k) ++ " Tw"]))) :=
  ⟨rfl, by norm_num [c6doc], by norm_num [c6doc],
    c6_cell_page_break 50 10 [Char.ofNat 97] (.bInt 0) 0 "" false .lNil c6doc rfl
      ⟨by decide, by decide, by decide, by decide, by decide, rfl, rfl,
        by norm_num [c6doc]⟩
      (by norm_num [c6doc]) (by norm_num [c6doc]) rfl rfl rfl⟩

/-- Transfer of the font-registry invariant along context equality. -/
theorem fontInv_of_ctx (b b0 : Fpdf) (hctx : fontCtx b = fontCtx b0)
    (hinv : FontInv b0) : FontInv b := by
  simp only [fontCtx, Prod.mk.injEq] at hctx
  obtain ⟨h1, h2, h3, h4, h5, h6, h7, h8, h9, h10, h11, h12, h13, h14, h15⟩ := hctx
  refine ⟨?_, ?_, ?_, ?_, ?_, ?_, ?_, ?_⟩
  · rw [h5]; exact hinv.family_ne
  · rw [h5]; exact hinv.family_lower
  · rw [h6]; exact hinv.style_upper
  · rw [h6]; exact hinv.style_noU
  · rw [h6]; exact hinv.style_notIB
  · rw [h4, h5, h6, h8]; exact hinv.lookup_eq
  · rw [h8]; exact hinv.font_some
  · rw [h10, h9, h2]; exact hinv.size_eq

/-- `GetStringWidth` only reads the current font and the font size. -/
theorem getStringWidth_congr (b b0 : Fpdf) (hcf : b.currentFont = b0.currentFont)
    (hfs : b.fontSize = b0.fontSize) (t : List Char) :
    GetStringWidth b t = GetStringWidth b0 t := by
  simp only [GetStringWidth, hcf, hfs]

/-- `charWidth` only reads the current font. -/
theorem charWidth_congr (b b0 : Fpdf) (hcf : b.currentFont = b0.currentFont) (c : Char) :
    charWidth b c = charWidth b0 c := by
  simp only [charWidth, hcf]

/-- The cursor update of `Cell` keeps the font context. -/
theorem fontCtx_cellAdvance (w h : ℚ) (ln : ℤ) (b : Fpdf) :
    fontCtx (cellAdvance w h ln b) = fontCtx b := by
  simp only [cellAdvance]
  split
  · split <;> rfl
  · rfl

/-- The cursor update of `Cell` keeps the word spacing. -/
theorem ws_cellAdvance (w h : ℚ) (ln : ℤ) (b : Fpdf) :
    (cellAdvance w h ln b).ws = b.ws := by
  simp only [cellAdvance]
  split
  · split <;> rfl
  · rfl

/-- The drawing phase of `Cell` succeeds on an open page with a font (or empty
text) and keeps the font context and the word spacing. -/
theorem cellDraw_preserves (w h : ℚ) (txt : List Char) (border : BorderArg) (ln : ℤ)
    (align : String) (fill : Bool) (link : LinkArg) (p : Fpdf) (hstate : p.state = 2)
    (hok : txt = [] ∨ p.currentFont.isSome) :
    ∃ p2, cellDraw w h txt border ln align fill link p = .ok p2 ∧
      fontCtx p2 = fontCtx p ∧ p2.ws = p.ws := by
  rw [cellDraw]
  by_cases ht : txt = []
  · rw [if_pos ht]
    simp only [ok_bind]
    split
    · rw [out_ok _ _ hstate]
      simp only [ok_bind]
      exact ⟨_, rfl, by rw [fontCtx_cellAdvance]; all_goals rfl, by rw [ws_cellAdvance]; all_goals rfl⟩
    · simp only [ok_bind]
      exact ⟨_, rfl, by rw [fontCtx_cellAdvance]; all_goals rfl, by rw [ws_cellAdvance]; all_goals rfl⟩
  · rw [if_neg ht]
    have hsome : p.currentFont.isSome := hok.resolve_left ht
    have hnone : p.currentFont.isNone = false := by
      rcases Option.isSome_iff_exists.mp hsome with ⟨f, hf⟩
      rw [hf]
      rfl
    rw [hnone]
    simp only [Bool.false_eq_true, if_false, ok_bind]
    have hbt : ("BT " : String).length = 3 := rfl
    have hne : (cellRectOp (cellWidth w p) h border fill p ++
        cellBorderOp (cellWidth w p) h border p ++
        cellTextOp (cellWidth w p) h txt align p) ≠ "" := by
      intro he
      have hl := congrArg String.length he
      simp only [cellTextOp, String.length_append, String.length_empty, hbt] at hl
      omega
    rw [if_pos hne]
    by_cases hlk : link ≠ .lStr "" ∧ link ≠ .lNil
    · rw [if_pos hlk, out_ok _ _ (by rw [linkState_eq]; exact hstate)]
      simp only [ok_bind]
      exact ⟨_, rfl, by rw [fontCtx_cellAdvance]; all_goals rfl, by rw [ws_cellAdvance]; all_goals rfl⟩
    · rw [if_neg hlk, out_ok _ _ hstate]
      simp only [ok_bind]
      exact ⟨_, rfl, by rw [fontCtx_cellAdvance]; all_goals rfl, by rw [ws_cellAdvance]; all_goals rfl⟩

/-- A `Cell` call on an open page with a consistent font selection succeeds
and keeps the font context and the word spacing, whether or not it takes a
page break. -/
theorem cell_preserves (w h : ℚ) (txt : List Char) (border : BorderArg) (ln : ℤ)
    (align : String) (fill : Bool) (link : LinkArg) (p : Fpdf)
    (hst : p.state = 2) (hinv : FontInv p) :
    ∃ p2, Cell w h txt border ln align fill link p = .ok p2 ∧
      fontCtx p2 = fontCtx p ∧ p2.ws = p.ws := by
  by_cases hbr : p.y + h > p.pageBreakTrigger ∧ p.inHeader = false ∧
      p.inFooter = false ∧ AcceptPageBreak p = true
  · obtain ⟨q, hq, c1, c2, c3, c4, c5, c6, c7, c8, c9, c10, c11, c12, c13, c14, c15,
      c16, c17, c18, c19, cev⟩ :=
      cellStartPageBreak_break h p hst hinv hbr.1 hbr.2.1 hbr.2.2.1 hbr.2.2.2
    obtain ⟨p2, hp2, hctx2, hws2⟩ :=
      cellDraw_preserves w h txt border ln align fill link q c1
        (Or.inr (by rw [c17]; exact hinv.font_some))
    refine ⟨p2, ?_, ?_, ?_⟩
    · simp only [Cell]
      rw [hq]
      simp only [ok_bind]
      exact hp2
    · rw [hctx2]
      simp only [fontCtx, Prod.mk.injEq]
      exact ⟨by rw [c1, hst], c6, c7, c13, c14, c15, c16, c17, c18, c19, c8, c9,
        c10, c11, c12⟩
    · rw [hws2, c4]
  · have hgd : cellStartPageBreak h p = .ok p := by
      simp only [cellStartPageBreak]
      rw [if_neg hbr]
    obtain ⟨p2, hp2, hctx2, hws2⟩ :=
      cellDraw_preserves w h txt border ln align fill link p hst
        (Or.inr hinv.font_some)
    refine ⟨p2, ?_, hctx2, hws2⟩
    simp only [Cell]
    rw [hgd]
    simp only [ok_bind]
    exact hp2

/-- Composition principle for `Except` binds with an arbitrary result type. -/
theorem bind_effectsA {α : Type} (X : Except String Fpdf)
    (f : Fpdf → Except String α) (P : Fpdf → Prop) (Q : α → Prop)
    (hX : ∃ b, X = .ok b ∧ P b)
    (hf : ∀ b, P b → ∃ c, f b = .ok c ∧ Q c) :
    ∃ c, (X >>= f) = .ok c ∧ Q c := by
  obtain ⟨b, hb, hPb⟩ := hX
  obtain ⟨c, hc, hQc⟩ := hf b hPb
  refine ⟨c, ?_, hQc⟩
  rw [hb]
  simp only [ok_bind]
  exact hc

/-- The conditional word-spacing clear emitted by the scan loops. -/
theorem clear_ws_ok (p : Fpdf) (hst : p.state = 2) :
    ∃ p2, (if p.ws > 0 then out "0 Tw" {p with ws := 0} else .ok p) = .ok p2 ∧
      fontCtx p2 = fontCtx p ∧ (p2.ws = 0 ∨ p2.ws = p.ws) ∧
      (0 ≤ p.ws → 0 ≤ p2.ws) ∧ p2.state = 2 := by
  split
  · exact ⟨_, out_ok "0 Tw" {p with ws := 0} hst, rfl, Or.inl rfl,
      fun _ => le_refl 0, hst⟩
  · exact ⟨p, rfl, rfl, Or.inr rfl, fun hp => hp, hst⟩

/-- The empty slice. -/
theorem slice_self (s : List Char) (a : ℕ) : slice s a a = [] := by
  simp only [slice]
  apply List.drop_eq_nil_of_le
  simp [List.length_take]

/-- Extending a slice by the character at its right end. -/
theorem slice_succ (s : List Char) (j i : ℕ) (hj : j ≤ i) (hi : i < s.length) :
    slice s j (i + 1) = slice s j i ++ [s.getD i ' '] := by
  simp only [slice]
  rw [List.take_succ]
  rw [List.drop_append_of_le_length (by simp [List.length_take]; omega)]
  congr 1
  rw [List.getElem?_eq_getElem hi]
  simp [List.getD_eq_getElem?_getD, List.getElem?_eq_getElem hi]

/-- Width of the empty slice. -/
theorem sliceWidth_self (p : Fpdf) (s : List Char) (a : ℕ) : sliceWidth p s a a = 0 := by
  simp [sliceWidth, slice_self]

/-- Width of a one-character extension. -/
theorem sliceWidth_succ (p : Fpdf) (s : List Char) (j i : ℕ) (hj : j ≤ i)
    (hi : i < s.length) :
    sliceWidth p s j (i + 1) = sliceWidth p s j i + charWidth p (s.getD i ' ') := by
  simp [sliceWidth, slice_succ s j i hj hi]

/-- With a nonnegative width table, every fallback char width is nonnegative. -/
theorem charWidth_nonneg (p : Fpdf) (f : PdfFont) (hf : p.currentFont = some f)
    (hcw : ∀ bb : Fin 256, 0 ≤ f.cw bb) (c : Char) : 0 ≤ charWidth p c := by
  simp only [charWidth, hf]
  split
  · apply hcw
  · apply hcw

/-- The raw width sum used by `GetStringWidth` is below the fallback sum the
scan accumulates, for a nonnegative width table. -/
theorem rawSum_le (p : Fpdf) (f : PdfFont) (hf : p.currentFont = some f)
    (hcw : ∀ bb : Fin 256, 0 ≤ f.cw bb) (t : List Char) :
    (t.map (fun c => f.cw (byteOf c))).sum ≤ (t.map (charWidth p)).sum := by
  apply List.sum_le_sum
  intro c _
  simp only [charWidth, hf]
  split
  · rename_i h0
    rw [h0]
    apply hcw
  · exact le_refl _

/-- `GetStringWidth` bounded through a bound on the fallback sum. -/
theorem strW_le (p0 : Fpdf) (f : PdfFont) (hf : p0.currentFont = some f)
    (hcw : ∀ bb : Fin 256, 0 ≤ f.cw bb) (hfs : 0 < p0.fontSize) (t : List Char)
    (B : ℚ) (hB : (((t.map (charWidth p0)).sum : ℤ) : ℚ) ≤ B) :
    GetStringWidth p0 t ≤ B * p0.fontSize / 1000 := by
  simp only [GetStringWidth, hf]
  have h1 : (((t.map (fun c => f.cw (byteOf c))).sum : ℤ) : ℚ) ≤ B := by
    refine le_trans ?_ hB
    exact_mod_cast rawSum_le p0 f hf hcw t
  gcongr

/-- Witness for C9 at a concrete state: empty text, full border, fill on. -/
theorem c9_witness :
    c9doc.state = 2 ∧
    ¬(c9doc.y + 5 > c9doc.pageBreakTrigger ∧ c9doc.inHeader = false ∧
      c9doc.inFooter = false ∧ AcceptPageBreak c9doc = true) ∧
    (((∃ e, Cell 20 5 [] (.bInt 1) 0 "" true .lNil c9doc = .error e) ↔
        (([] : List Char) ≠ [] ∧ c9doc.currentFont = none)) ∧
      (([] : List Char) = [] →
        ∃ p2, Cell 20 5 [] (.bInt 1) 0 "" true .lNil c9doc = .ok p2 ∧
          (0 < (0 : ℤ) → p2.y = c9doc.y + 5 ∧
            p2.x = (if (0 : ℤ) = 1 then c9doc.lMargin else c9doc.x)) ∧
          (¬0 < (0 : ℤ) → p2.x = c9doc.x + cellWidth 20 c9doc ∧ p2.y = c9doc.y) ∧
          (cellRectOp (cellWidth 20 c9doc) 5 (.bInt 1) true c9doc ++
              cellBorderOp (cellWidth 20 c9doc) 5 (.bInt 1) c9doc ≠ "" →
            p2.pages = c9doc.pages.set (c9doc.page - 1) (c9doc.pages.getD (c9doc.page - 1) [] ++
              [cellRectOp (cellWidth 20 c9doc) 5 (.bInt 1) true c9doc ++
               cellBorderOp (cellWidth 20 c9doc) 5 (.bInt 1) c9doc]))) ∧
      (true = true → (cellRectOp (cellWidth 20 c9doc) 5 (.bInt 1) true c9doc).length > 0)) :=
  ⟨rfl, by simp [c9doc, emptyFpdf, AcceptPageBreak],
    c9_cell_no_font_iff 20 5 [] (.bInt 1) 0 "" true .lNil c9doc rfl
      (by simp [c9doc, emptyFpdf, AcceptPageBreak])⟩

/-- Witness for C8 amended, at the same concrete invalid tokens. -/
theorem c8_amended_witness :
    strLower (strTrim "furlong") ∉ (["pt", "mm", "cm", "in"] : List String) ∧
    strLower (strTrim "bogus") ∉ (["a3", "a4", "a5", "letter", "legal"] : List String) ∧
    ((Reset "P" "furlong" "bogus" emptyFpdf).k = 72 / 25.4 ∧
     (Reset "P" "furlong" "bogus" emptyFpdf).lastError = "" ∧
     (Reset "P" "furlong" "bogus" emptyFpdf).defPageSize =
       (595.28 / (72 / 25.4), 841.89 / (72 / 25.4))) :=
  ⟨by decide, by decide,
    c8_amended "P" "furlong" "bogus" emptyFpdf (by decide) (by decide)⟩

end Gofpdf
